import Mathlib

/-!
Verification of the deeptrender reconciliation/curation core.

This file gives a shallow embedding, in Lean 4, of the four core components
of the repository (venue attribution, cross-source record linkage, keyword
curation, emerging-topic detection) and proves or refutes the frozen claims
about them.  Every definition is translated from the Python source:

* `src/src/extractor/keyword_filter.py`   (KeywordFilter)
* `src/src/agents/analysis_agent.py`      (AnalysisAgent.process_paper)
* `src/src/agents/structuring_agent.py`   (StructuringAgent)
* `src/src/database/repository.py`        (StructuredRepository)
* `src/src/analysis/arxiv_agent.py`       (detect_emerging_topics)
* `enhance_venue_detection.py`            (extract_venue_from_comments)

Scores and confidences are embedded as rationals; Python strings are
embedded as Lean strings, with ASCII lower-casing (all table entries and
all inputs of interest are ASCII).
-/

namespace DeepTrender

/-! ## Basic string utilities (Python semantics) -/

/-- The ASCII upper-to-lower case table. -/
def caseTable : List (Char × Char) :=
  [('A','a'), ('B','b'), ('C','c'), ('D','d'), ('E','e'), ('F','f'),
   ('G','g'), ('H','h'), ('I','i'), ('J','j'), ('K','k'), ('L','l'),
   ('M','m'), ('N','n'), ('O','o'), ('P','p'), ('Q','q'), ('R','r'),
   ('S','s'), ('T','t'), ('U','u'), ('V','v'), ('W','w'), ('X','x'),
   ('Y','y'), ('Z','z')]

/-- ASCII lower-casing of a character, as performed by both Python's
`str.lower` and SQLite's `LOWER` on ASCII data. -/
def lowerChar (c : Char) : Char := (caseTable.lookup c).getD c

/-- Lower-casing of a string (`str.lower`). -/
def lowerStr (s : String) : String := ⟨s.data.map lowerChar⟩

/-- Python `str.isspace`-style whitespace characters, as used by
`str.split()`, `str.strip()` and the regex class `\s`. -/
def pyIsSpace (c : Char) : Bool :=
  c = ' ' || c = '\t' || c = '\n' || c = '\x0b' || c = '\x0c' || c = '\r'

/-- Embeds `str.split()` with no argument: split on whitespace runs, dropping
empty tokens. -/
def splitWS (s : String) : List String :=
  go s.data []
where
  go : List Char → List Char → List String
  | [], acc => if acc.isEmpty then [] else [⟨acc.reverse⟩]
  | c :: cs, acc =>
    if pyIsSpace c then
      if acc.isEmpty then go cs [] else ⟨acc.reverse⟩ :: go cs []
    else go cs (c :: acc)

/-- Embeds `str.strip()`: remove leading and trailing whitespace. -/
def pyStrip (s : String) : String :=
  ⟨((s.data.dropWhile (fun c => pyIsSpace c)).reverse.dropWhile
      (fun c => pyIsSpace c)).reverse⟩

/-- Python substring containment (`sub in s`). -/
def strContains (s sub : String) : Bool :=
  s.data.tails.any (fun t => sub.data.isPrefixOf t)

/-- Embeds `" ".join(tokens)`. -/
def joinSpace : List String → String
  | [] => ""
  | [x] => x
  | x :: xs => x ++ " " ++ joinSpace xs

end DeepTrender

namespace DeepTrender

/-! ## Keyword filter: configuration tables
(`src/src/extractor/keyword_filter.py`) -/

/-- Embeds `BANNED_WORDS` (low-information academic filler). -/
def BANNED_WORDS : List String :=
  ["method", "methods", "approach", "approaches", "technique", "techniques",
   "result", "results", "performance", "paper", "papers", "study", "studies",
   "novel", "new", "proposed", "propose", "present", "presents", "introduction",
   "conclusion", "abstract", "work", "works", "research", "analysis",
   "experiment", "experiments", "evaluation", "evaluations",
   "model", "models", "network", "networks", "system", "systems",
   "algorithm", "algorithms", "framework", "frameworks",
   "data", "dataset", "datasets", "benchmark", "benchmarks",
   "training", "testing", "learning", "task", "tasks",
   "based", "using", "via", "improved", "better", "best", "efficient",
   "effective", "simple", "complex", "large", "small", "high", "low",
   "state", "art", "end", "end to end",
   "show", "shows", "demonstrate", "demonstrates", "achieve", "achieves",
   "outperform", "outperforms", "improve", "improves"]

/-- Embeds `ENGLISH_STOPWORDS`. -/
def ENGLISH_STOPWORDS : List String :=
  ["a", "an", "the", "and", "or", "but", "if", "then", "else", "when",
   "at", "by", "for", "with", "about", "against", "between", "into",
   "through", "during", "before", "after", "above", "below", "to", "from",
   "up", "down", "in", "out", "on", "off", "over", "under", "again",
   "further", "once", "here", "there", "all", "each", "few", "more",
   "most", "other", "some", "such", "no", "nor", "not", "only", "own",
   "same", "so", "than", "too", "very", "can", "will", "just", "should",
   "now", "also", "however", "thus", "therefore", "hence", "although",
   "whereas", "while", "since", "because", "as", "is", "are", "was",
   "were", "be", "been", "being", "have", "has", "had", "having", "do",
   "does", "did", "doing", "would", "could", "might", "may", "must",
   "shall", "i", "you", "he", "she", "it", "we", "they", "what", "which",
   "who", "whom", "this", "that", "these", "those", "am"]

/-- Embeds `DOMAIN_NOISE_WORDS`. -/
def DOMAIN_NOISE_WORDS : List String :=
  ["experiments", "experimental", "ablation", "ablations",
   "comparison", "comparisons", "baseline", "baselines",
   "dataset", "datasets", "benchmark", "benchmarks",
   "samples", "sample", "examples", "example",
   "accuracy", "loss", "metrics", "metric", "score", "scores",
   "table", "figure", "figures", "tables",
   "problem", "problems", "solution", "solutions",
   "challenge", "challenges", "issue", "issues",
   "application", "applications"]

/-- Embeds `SYNONYM_MAPPING` (insertion order as in the source; lookup is by key). -/
def SYNONYM_MAPPING : List (String × String) :=
  [("llm", "large language model"),
   ("llms", "large language model"),
   ("large language models", "large language model"),
   ("diffusion models", "diffusion model"),
   ("diffusion based", "diffusion model"),
   ("transformers", "transformer"),
   ("vision transformer", "vision transformer"),
   ("vision transformers", "vision transformer"),
   ("vit", "vision transformer"),
   ("vits", "vision transformer"),
   ("gans", "generative adversarial network"),
   ("gan", "generative adversarial network"),
   ("generative adversarial networks", "generative adversarial network"),
   ("cnn", "convolutional neural network"),
   ("cnns", "convolutional neural network"),
   ("convolutional neural networks", "convolutional neural network"),
   ("rnn", "recurrent neural network"),
   ("rnns", "recurrent neural network"),
   ("recurrent neural networks", "recurrent neural network"),
   ("lstm", "long short term memory"),
   ("lstms", "long short term memory"),
   ("rl", "reinforcement learning"),
   ("drl", "deep reinforcement learning"),
   ("self supervised", "self supervised learning"),
   ("self supervision", "self supervised learning"),
   ("contrastive", "contrastive learning"),
   ("nlp", "natural language processing"),
   ("cv", "computer vision"),
   ("ml", "machine learning"),
   ("dl", "deep learning"),
   ("ai", "artificial intelligence")]

/-- The `KeywordFilter` class configuration. -/
structure KeywordFilter where
  bannedWords : List String
  stopwords : List String
  domainNoise : List String
  synonymMap : List (String × String)
  minLength : Nat
  maxLength : Nat

/-- The default `KeywordFilter()` instance (`get_keyword_filter`). -/
def defaultFilter : KeywordFilter :=
  { bannedWords := BANNED_WORDS
    stopwords := ENGLISH_STOPWORDS
    domainNoise := DOMAIN_NOISE_WORDS
    synonymMap := SYNONYM_MAPPING
    minLength := 3
    maxLength := 60 }

namespace KeywordFilter

/-- Characters mapped to a space by `re.sub(r'[-_/]', ' ', kw)`. -/
def isPunctToSpace (c : Char) : Bool := c = '-' || c = '_' || c = '/'

/-- Characters of the trailing class in `re.sub(r'[,;:.!?\x27")\]]+$', '', kw)`. -/
def isTrailPunct (c : Char) : Bool :=
  c = ',' || c = ';' || c = ':' || c = '.' || c = '!' || c = '?' ||
  c = '\'' || c = '"' || c = ')' || c = ']'

/-- Characters of the leading class in `re.sub(r'^[(\[\x27\"]+', '', kw)`. -/
def isLeadPunct (c : Char) : Bool :=
  c = '(' || c = '[' || c = '\'' || c = '"'

/-- Collapse every whitespace run to a single space
(`re.sub(r'\s+', ' ', kw)`) and strip, expressed through `split`/join. -/
def collapseWS (s : String) : String :=
  joinSpace (splitWS s)

/-- Embeds `KeywordFilter.normalize`: lower+strip, map `-_/` to space, strip
trailing then leading punctuation, collapse whitespace; empty result
becomes `none`. -/
def normalize (kw : String) : Option String :=
  if kw = "" then none
  else
    let s1 := lowerStr (pyStrip kw)
    let s2 : String := ⟨s1.data.map (fun c => if isPunctToSpace c then ' ' else c)⟩
    let s3 : String := ⟨(s2.data.reverse.dropWhile (fun c => isTrailPunct c)).reverse⟩
    let s4 : String := ⟨s3.data.dropWhile (fun c => isLeadPunct c)⟩
    let s5 := collapseWS s4
    if s5 = "" then none else some s5

/-- Embeds `KeywordFilter.is_banned`. -/
def isBanned (f : KeywordFilter) (kw : String) : Bool := f.bannedWords.contains kw

/-- Embeds `KeywordFilter.is_stopword`. -/
def isStopword (f : KeywordFilter) (kw : String) : Bool :=
  if f.stopwords.contains kw then true
  else if (splitWS kw).length = 1 then f.stopwords.contains kw
  else false

/-- Embeds `KeywordFilter.is_domain_noise`. -/
def isDomainNoise (f : KeywordFilter) (kw : String) : Bool := f.domainNoise.contains kw

/-- Character class of `re.match(r'^[\d\s.,-]+$', kw)`. -/
def isNumSpacePunct (c : Char) : Bool :=
  c.isDigit || pyIsSpace c || c = '.' || c = ',' || c = '-'

/-- Embeds `KeywordFilter.is_noise_pattern`: length bounds, all-numeric, digit
ratio above one half, URL/email substrings, single short token. -/
def isNoisePat (f : KeywordFilter) (kw : String) : Bool :=
  if kw.length < f.minLength || kw.length > f.maxLength then true
  else if kw ≠ "" && kw.data.all (fun c => isNumSpacePunct c) then true
  else if 2 * (kw.data.filter (fun c => c.isDigit)).length > kw.length then true
  else if strContains kw "http" || strContains kw "www" || strContains kw ".com"
       || strContains kw ".org" || strContains kw "@" then true
  else if (splitWS kw).length = 1 && kw.length < 3 then true
  else false

/-- Embeds `KeywordFilter.should_filter`. -/
def shouldFilter (f : KeywordFilter) (kw : String) : Bool :=
  isBanned f kw || isStopword f kw || isDomainNoise f kw || isNoisePat f kw

/-- Embeds `KeywordFilter.apply_synonym`. -/
def applySynonym (f : KeywordFilter) (kw : String) : String :=
  match f.synonymMap.lookup kw with
  | some v => v
  | none => kw

/-- One insertion step of the `seen` dict in `deduplicate_exact`:
new keys are appended, existing keys keep the maximum score in place. -/
def upsertMax : List (String × ℚ) → String → ℚ → List (String × ℚ)
  | [], kw, sc => [(kw, sc)]
  | (k, v) :: rest, kw, sc =>
    if k = kw then (if sc > v then (k, sc) else (k, v)) :: rest
    else (k, v) :: upsertMax rest kw sc

/-- Embeds `KeywordFilter.deduplicate_exact`: keep the highest score per exact
term, in first-insertion order. -/
def dedupExact (l : List (String × ℚ)) : List (String × ℚ) :=
  l.foldl (fun acc p => upsertMax acc p.1 p.2) []

end KeywordFilter

/-! ## difflib.SequenceMatcher ratio (used by `KeywordFilter.similarity`)

`SequenceMatcher(None, a, b).ratio()` with short strings: no junk, no
autojunk (strings here are far below 200 characters).  We embed the
`find_longest_match` dynamic program and the recursive decomposition of
`get_matching_blocks`, and compute the ratio `2*M / (len a + len b)`
exactly over `ℚ`. -/

/-- Positions of `c` in `b` (ascending), the `b2j` table. -/
def posIn (b : List Char) (c : Char) : List Nat :=
  (b.enum.filter (fun p => p.2 = c)).map (fun p => p.1)

/-- One row of the `find_longest_match` dynamic program: scan the
occurrences `js` of `a[i]` in `b` (restricted to `[blo, bhi)`), build the
new `j2len` row and update the running best `(besti, bestj, bestsize)`. -/
def flmRow (i : Nat) (blo bhi : Nat) (j2len : List (Nat × Nat)) :
    List Nat → List (Nat × Nat) × (Nat × Nat × Nat) → List (Nat × Nat) × (Nat × Nat × Nat)
  | [], st => st
  | j :: js, (newRow, best) =>
    if blo ≤ j ∧ j < bhi then
      let k := if j = 0 then 1 else ((j2len.lookup (j - 1)).getD 0) + 1
      let best' := if k > best.2.2 then (i + 1 - k, j + 1 - k, k) else best
      flmRow i blo bhi j2len js ((j, k) :: newRow, best')
    else
      flmRow i blo bhi j2len js (newRow, best)

/-- Embeds `SequenceMatcher.find_longest_match(alo, ahi, blo, bhi)` (no junk):
returns `(besti, bestj, bestsize)`. -/
def findLongestMatch (a b : List Char) (alo ahi blo bhi : Nat) : Nat × Nat × Nat :=
  let step := fun (st : List (Nat × Nat) × (Nat × Nat × Nat)) (i : Nat) =>
    let (row, best) := flmRow i blo bhi st.1 (posIn b (a.getD i ' ')) ([], st.2)
    (row, best)
  ((List.range' alo (ahi - alo)).foldl step ([], (alo, blo, 0))).2

/-- Total size of the matching blocks of `get_matching_blocks`, computed
by the recursive splitting around each longest match (`fuel` bounds the
recursion depth; `a.length + 1` always suffices). -/
def matchBlocksSize (a b : List Char) : Nat → Nat → Nat → Nat → Nat → Nat
  | 0, _, _, _, _ => 0
  | fuel + 1, alo, ahi, blo, bhi =>
    let (i, j, k) := findLongestMatch a b alo ahi blo bhi
    if k = 0 then 0
    else k + matchBlocksSize a b fuel alo i blo j
           + matchBlocksSize a b fuel (i + k) ahi (j + k) bhi

/-- Total matched size for the whole strings. -/
def matchingSize (a b : List Char) : Nat :=
  matchBlocksSize a b (a.length + 1) 0 a.length 0 b.length

/-- Embeds `difflib` `_calculate_ratio`: `2*M/T`, and `1.0` when both empty
(the quotient is written with `Rat.divInt`, which is the same rational as
`(2*M : ℚ) / T`). -/
def ratioQ (a b : List Char) : ℚ :=
  let total := a.length + b.length
  if total = 0 then 1 else Rat.divInt (2 * (matchingSize a b)) total

namespace KeywordFilter

/-- Embeds `KeywordFilter.similarity`: `SequenceMatcher(None, a, b).ratio()`. -/
def similarity (a b : String) : ℚ := ratioQ a.data b.data

/-- Embeds `kw.rstrip('s')`. -/
def rstripS (s : String) : String :=
  ⟨(s.data.reverse.dropWhile (fun c => c = 's')).reverse⟩

/-- The rejection test of `deduplicate_fuzzy`: a candidate `kw` is judged
similar to an accepted `e` when the ratio reaches the threshold or when the
two differ by a naive trailing-`s` plural. -/
def judgedSimilar (th : ℚ) (kw e : String) : Bool :=
  (similarity kw e ≥ th) || rstripS kw = e || rstripS e = kw

end KeywordFilter

/-! ## Stable sorting (Python `sorted`) -/

/-- Stable insertion (descending by a rational key): the inserted element
goes after all already-placed elements with a strictly greater key, hence
before equal keys of later elements — together with `sortQDesc` this is
exactly Python's stable `sorted(..., reverse=True)`. -/
def insertQDesc {α : Type} (key : α → ℚ) (x : α) : List α → List α
  | [] => [x]
  | y :: ys => if key x < key y then y :: insertQDesc key x ys else x :: y :: ys

/-- Stable sort, descending by a rational key. -/
def sortQDesc {α : Type} (key : α → ℚ) : List α → List α
  | [] => []
  | x :: xs => insertQDesc key x (sortQDesc key xs)

/-- Lexicographic code-point comparison of strings, as Python's `<` on
`str` (same order as Lean's `String.lt`, written executably). -/
def strLtB : List Char → List Char → Bool
  | [], [] => false
  | [], _ :: _ => true
  | _ :: _, [] => false
  | a :: as, b :: bs =>
    if a.toNat < b.toNat then true
    else if b.toNat < a.toNat then false
    else strLtB as bs

def pyStrLt (s t : String) : Bool := strLtB s.data t.data

/-- Stable insertion (ascending by a string key). -/
def insertStrAsc {α : Type} (key : α → String) (x : α) : List α → List α
  | [] => [x]
  | y :: ys => if pyStrLt (key y) (key x) then y :: insertStrAsc key x ys else x :: y :: ys

/-- Stable sort, ascending by a string key (Python `sorted` with a string
key). -/
def sortStrAsc {α : Type} (key : α → String) : List α → List α
  | [] => []
  | x :: xs => insertStrAsc key x (sortStrAsc key xs)

namespace KeywordFilter

/-- Embeds `KeywordFilter.deduplicate_fuzzy`: sort by score descending, then
greedily accept a term unless it is judged similar to an accepted one. -/
def dedupFuzzy (l : List (String × ℚ)) (threshold : ℚ) : List (String × ℚ) :=
  (sortQDesc (fun p => p.2) l).foldl
    (fun acc p =>
      if acc.any (fun e => judgedSimilar threshold p.1 e.1) then acc
      else acc ++ [p])
    []

/-- Stages 1–3 of `KeywordFilter.process`: normalize, filter, synonym-
canonicalize each candidate, dropping the failures. -/
def stage3 (f : KeywordFilter) (keywords : List (String × ℚ)) : List (String × ℚ) :=
  keywords.filterMap (fun p =>
    match normalize p.1 with
    | none => none
    | some n => if shouldFilter f n then none else some (applySynonym f n, p.2))

/-- Embeds `KeywordFilter.process`: normalize, filter, canonicalize, exact dedup,
then optional fuzzy dedup. -/
def process (f : KeywordFilter) (keywords : List (String × ℚ))
    (fuzzyDedup : Bool := true) (fuzzyThreshold : ℚ := 85/100) : List (String × ℚ) :=
  let r := dedupExact (stage3 f keywords)
  if fuzzyDedup then dedupFuzzy r fuzzyThreshold else r

end KeywordFilter

/-- The keyword stage of `AnalysisAgent.process_paper`: run the default
filter with fuzzy dedup on and keep the first 10 results
(`filtered = self.filter_keywords(raw_keywords, fuzzy_dedup=True)` followed
by `filtered = filtered[:10]`). -/
def processPaperKeywords (rawKeywords : List (String × ℚ)) : List (String × ℚ) :=
  (KeywordFilter.process defaultFilter rawKeywords true (85/100)).take 10

/-! ## A small regular-expression engine

Only the constructs used by the venue patterns of
`structuring_agent.VENUE_PATTERNS` and
`enhance_venue_detection.VENUE_PATTERNS_ENHANCED` are represented:
case-insensitive literals, `\b`, character-class repetitions
(`\s*`, `\s+`, `['\s]*`, `.*`, `\d{lo,hi}`), a single capturing
`(\d{lo,hi})` group (optionally `?`), and a literal alternation
`(?:by|at|to)`.  Matching is greedy with backtracking and search is
leftmost, exactly as in Python `re`. -/

/-- Character classes appearing in the venue patterns. -/
inductive CClass where
  | digit      -- `\d`
  | space      -- `\s`
  | aposSpace  -- `['\s]`
  | anyNotNL   -- `.`
  deriving DecidableEq

def inClass : CClass → Char → Bool
  | .digit, c => c.isDigit
  | .space, c => pyIsSpace c
  | .aposSpace, c => c = '\'' || pyIsSpace c
  | .anyNotNL, c => c ≠ '\n'

/-- Items of a venue pattern (a pattern is a sequence of items). -/
inductive RItem where
  | lit : List Char → RItem                -- literal text (stored lower-case)
  | wordB : RItem                          -- `\b`
  | repC : CClass → Nat → Option Nat → RItem  -- `c{lo,hi}` / `c*` / `c+`
  | capRep : CClass → Nat → Nat → RItem       -- `(c{lo,hi})`, the capturing group
  | optCapRep : CClass → Nat → Nat → RItem    -- `(c{lo,hi})?`
  | altLit : List (List Char) → RItem         -- `(?:w1|w2|...)`
  deriving DecidableEq

/-- Word character for `\b` (`[a-zA-Z0-9_]`). -/
def isWordChar (c : Char) : Bool := c.isAlphanum || c = '_'

def isWordOpt : Option Char → Bool
  | some c => isWordChar c
  | none => false

/-- Length of the maximal prefix of `s` inside class `c`. -/
def classRun (c : CClass) : List Char → Nat
  | [] => 0
  | x :: xs => if inClass c x then classRun c xs + 1 else 0

/-- First successful result of `f` over a list (backtracking order). -/
def firstSome {α β : Type} (f : α → Option β) : List α → Option β
  | [] => none
  | x :: xs => match f x with
    | some r => some r
    | none => firstSome f xs

/-- Candidate consumption counts for a greedy bounded repetition:
`hi, hi-1, ..., lo`. -/
def greedyCounts (lo hi : Nat) : List Nat :=
  (List.range' lo (hi + 1 - lo)).reverse

/-- Matcher for a pattern (list of items) against the input `s`, anchored
at the current position; `prev` is the character immediately before the
position (for `\b`).  Returns `some cap` on success, where `cap` is the
text of the capturing group if it participated. -/
def matchSeq : List RItem → Option Char → List Char → Option (Option (List Char))
  | [], _, _ => some none
  | .lit w :: rest, prev, s =>
    if w.isPrefixOf s then
      matchSeq rest (if w.isEmpty then prev else w.getLast?) (s.drop w.length)
    else none
  | .wordB :: rest, prev, s =>
    if isWordOpt prev ≠ isWordOpt s.head? then matchSeq rest prev s else none
  | .repC c lo hi :: rest, prev, s =>
    let m := classRun c s
    let hi' := match hi with | some h => min h m | none => m
    firstSome (fun k =>
        if k ≤ m then
          matchSeq rest (if k = 0 then prev else (s.take k).getLast?) (s.drop k)
        else none)
      (greedyCounts lo hi')
  | .capRep c lo hi :: rest, prev, s =>
    let m := classRun c s
    firstSome (fun k =>
        if k ≤ m then
          (matchSeq rest (if k = 0 then prev else (s.take k).getLast?) (s.drop k)).map
            (fun _ => some (s.take k))
        else none)
      (greedyCounts lo (min hi m))
  | .optCapRep c lo hi :: rest, prev, s =>
    let m := classRun c s
    match firstSome (fun k =>
        if k ≤ m then
          (matchSeq rest (if k = 0 then prev else (s.take k).getLast?) (s.drop k)).map
            (fun _ => some (s.take k))
        else none)
      (greedyCounts lo (min hi m)) with
    | some r => some r
    | none => matchSeq rest prev s
  | .altLit ws :: rest, prev, s =>
    firstSome (fun w =>
        if w.isPrefixOf s then
          matchSeq rest (if w.isEmpty then prev else w.getLast?) (s.drop w.length)
        else none)
      ws

/-- Embeds `re.search` with `re.IGNORECASE`: try every start position, leftmost
first; the pattern literals are stored lower-case and the subject is
lower-cased. -/
def reSearch (items : List RItem) (text : String) : Option (Option String) :=
  let t := (lowerStr text).data
  firstSome (fun p =>
      (matchSeq items (if p = 0 then none else t.get? (p - 1)) (t.drop p)).map
        (fun cap => cap.map (fun l => (⟨l⟩ : String))))
    (List.range (t.length + 1))

/-! ## Venue patterns (`structuring_agent.VENUE_PATTERNS`) -/

/-- Shorthand for a lower-case literal item. -/
def litP (s : String) : RItem := .lit s.data

/-- Embeds `VENUE_PATTERNS`, in source (dict-insertion) order. -/
def VENUE_PATTERNS : List (String × List (List RItem)) :=
  [("ICML", [[.wordB, litP "icml", .wordB],
             [litP "international conference on machine learning"]]),
   ("NeurIPS", [[.wordB, litP "neurips", .wordB],
                [.wordB, litP "nips", .wordB],
                [litP "neural information processing"]]),
   ("ICLR", [[.wordB, litP "iclr", .wordB],
             [litP "international conference on learning representations"]]),
   ("CVPR", [[.wordB, litP "cvpr", .wordB],
             [litP "computer vision and pattern recognition"]]),
   ("ICCV", [[.wordB, litP "iccv", .wordB],
             [litP "international conference on computer vision"]]),
   ("ECCV", [[.wordB, litP "eccv", .wordB],
             [litP "european conference on computer vision"]]),
   ("ACL", [[.wordB, litP "acl", .repC .space 0 none, litP "20", .repC .digit 2 (some 2), .wordB],
            [litP "annual meeting of the association for computational linguistics"]]),
   ("EMNLP", [[.wordB, litP "emnlp", .wordB],
              [litP "empirical methods in natural language processing"]]),
   ("NAACL", [[.wordB, litP "naacl", .wordB],
              [litP "north american", .repC .anyNotNL 0 none, litP "acl"]]),
   ("AAAI", [[.wordB, litP "aaai", .wordB],
             [litP "aaai conference on artificial intelligence"]]),
   ("IJCAI", [[.wordB, litP "ijcai", .wordB],
              [litP "international joint conference on artificial intelligence"]]),
   ("CoRL", [[.wordB, litP "corl", .wordB],
             [litP "conference on robot learning"]]),
   ("AISTATS", [[.wordB, litP "aistats", .wordB],
                [litP "artificial intelligence and statistics"]])]

/-- Embeds `StructuringAgent._match_venue_patterns`: first venue (in table order)
one of whose patterns matches anywhere in the text. -/
def matchVenuePatterns (text : String) : Option String :=
  firstSome (fun vp =>
      if vp.2.any (fun p => (reSearch p text).isSome) then some vp.1 else none)
    VENUE_PATTERNS

/-! ## Raw and structured data model (`scraper/models.py`) -/

/-- Python truthiness of an optional string field. -/
def optTruthy : Option String → Bool
  | some s => !(s = "")
  | none => false

/-- Embeds `RawPaper` (the fields consumed by the structuring agent). -/
structure RawPaper where
  source : String
  sourcePaperId : String
  title : String
  abstract : String := ""
  authors : List String := []
  year : Option Int := none
  venueRaw : Option String := none
  journalRef : Option String := none
  comments : Option String := none
  categories : Option String := none
  doi : Option String := none
  rawId : Nat := 0
  deriving DecidableEq

/-- Embeds `Paper` (structured layer). -/
structure Paper where
  canonicalTitle : String
  abstract : String := ""
  authors : List String := []
  year : Option Int := none
  venueId : Option Nat := none
  venueType : String := "unknown"
  domain : Option String := none
  qualityFlag : String := "unknown"
  doi : Option String := none
  venueName : Option String := none
  deriving DecidableEq

/-- Embeds `Venue` (structured layer, the fields written by the agent). -/
structure VenueRec where
  canonicalName : String
  domain : Option String := none
  venueType : Option String := none
  deriving DecidableEq

/-- A `paper_sources` row (`ProvenanceLink`). -/
structure LinkRow where
  paperId : Nat
  rawId : Nat
  source : String
  confidence : ℚ
  deriving DecidableEq

/-- The structured store plus the agent's venue cache: `papers` and
`venues` are rowid-keyed tables in insertion order, `links` is the
`paper_sources` table, `nextPaperId`/`nextVenueId` are the next
autoincrement rowids. -/
structure AgentDB where
  papers : List (Nat × Paper) := []
  venues : List (Nat × VenueRec) := []
  links : List LinkRow := []
  nextPaperId : Nat := 1
  nextVenueId : Nat := 1
  venueCache : List (String × Nat) := []
  deriving DecidableEq

/-! ## StructuringAgent (`src/src/agents/structuring_agent.py`) -/

/-- Embeds `DOMAIN_CATEGORIES`, in source order. -/
def DOMAIN_CATEGORIES : List (String × List String) :=
  [("CV", ["cs.CV", "computer vision", "image", "video", "visual"]),
   ("NLP", ["cs.CL", "natural language", "nlp", "text", "language model"]),
   ("ML", ["cs.LG", "stat.ML", "machine learning", "deep learning"]),
   ("RL", ["cs.AI", "reinforcement learning", "robot", "control"]),
   ("AI", ["artificial intelligence", "neural network"])]

/-- Embeds `StructuringAgent._normalize_title`: collapse whitespace runs and
strip (via `" ".join(title.split())`). -/
def normalizeTitle (title : String) : String :=
  if title = "" then "" else joinSpace (splitWS title)

/-- Embeds `StructuringAgent._detect_venue`: OpenReview verbatim at 1.0, else
`venue_raw` at 0.9, else `comments` at 0.7, else `journal_ref` at 0.8,
else `(None, 0.0)`. -/
def detectVenue (rp : RawPaper) : Option String × ℚ :=
  if rp.source = "openreview" ∧ optTruthy rp.venueRaw then (rp.venueRaw, 1)
  else
    match (if optTruthy rp.venueRaw then matchVenuePatterns (rp.venueRaw.getD "") else none) with
    | some v => (some v, mkRat 9 10)
    | none =>
      match (if optTruthy rp.comments then matchVenuePatterns (rp.comments.getD "") else none) with
      | some v => (some v, mkRat 7 10)
      | none =>
        match (if optTruthy rp.journalRef then matchVenuePatterns (rp.journalRef.getD "") else none) with
        | some v => (some v, mkRat 8 10)
        | none => (none, 0)

/-- Python `max(d, key=d.get)` over an insertion-ordered dict: the first
key with the maximal value. -/
def firstArgmax : List (String × Nat) → Option String
  | [] => none
  | (k, v) :: rest =>
    some ((rest.foldl (fun best p => if p.2 > best.2 then p else best) (k, v)).1)

/-- Embeds `StructuringAgent._classify_domain`. -/
def classifyDomain (rp : RawPaper) : Option String :=
  let byCat : Option String :=
    if optTruthy rp.categories then
      let cats := lowerStr (rp.categories.getD "")
      firstSome (fun dc =>
          if dc.2.any (fun kw => strContains cats kw) then some dc.1 else none)
        DOMAIN_CATEGORIES
    else none
  match byCat with
  | some d => some d
  | none =>
    let text := lowerStr (rp.title ++ " " ++ rp.abstract)
    let scores := DOMAIN_CATEGORIES.filterMap (fun dc =>
      let sc := (dc.2.filter (fun kw => strContains text kw)).length
      if sc > 0 then some (dc.1, sc) else none)
    firstArgmax scores

/-- Embeds `StructuringAgent._determine_venue_type`. -/
def determineVenueType (rp : RawPaper) (venueName : Option String) : String :=
  if optTruthy venueName then "conference"
  else if rp.source = "arxiv" then
    (if optTruthy rp.journalRef then "journal" else "preprint")
  else if optTruthy rp.categories ∧ strContains (lowerStr (rp.categories.getD "")) "article" then
    "journal"
  else "unknown"

/-- Embeds `StructuringAgent._determine_quality`. -/
def determineQuality (rp : RawPaper) (venueName : Option String) : String :=
  if rp.source = "openreview" then "accepted"
  else if optTruthy venueName then
    (if strContains (lowerStr (rp.comments.getD "")) "accepted" then "accepted" else "unknown")
  else "unknown"

/-- Embeds `StructuredRepository.get_venue_by_name`: first `venues` row with the
given canonical name. -/
def getVenueByName (name : String) (db : AgentDB) : Option (Nat × VenueRec) :=
  db.venues.find? (fun v => v.2.canonicalName = name)

/-- Embeds `StructuredRepository.save_venue` on a fresh name: append the row and
return the new rowid. -/
def saveVenue (v : VenueRec) (db : AgentDB) : Nat × AgentDB :=
  (db.nextVenueId,
   { db with venues := db.venues ++ [(db.nextVenueId, v)],
             nextVenueId := db.nextVenueId + 1 })

/-- Embeds `StructuringAgent._get_or_create_venue`: cache, then store lookup,
then create. -/
def getOrCreateVenue (venueName : String) (domain : Option String) (db : AgentDB) :
    Nat × AgentDB :=
  match db.venueCache.lookup venueName with
  | some vid => (vid, db)
  | none =>
    match getVenueByName venueName db with
    | some (vid, _) =>
      (vid, { db with venueCache := db.venueCache ++ [(venueName, vid)] })
    | none =>
      let (vid, db') := saveVenue
        { canonicalName := venueName, domain := domain, venueType := some "conference" } db
      (vid, { db' with venueCache := db'.venueCache ++ [(venueName, vid)] })

/-- Embeds `StructuringAgent.process_raw_paper`: returns the structured `Paper`
(and the store, which venue creation may extend), or `none` for an
empty normalized title. -/
def processRawPaper (rp : RawPaper) (db : AgentDB) : Option Paper × AgentDB :=
  let canonicalTitle := normalizeTitle rp.title
  if canonicalTitle = "" then (none, db)
  else
    let (venueName, _confidence) := detectVenue rp
    let domain := classifyDomain rp
    let venueType := determineVenueType rp venueName
    let qualityFlag := determineQuality rp venueName
    let (venueId, db') :=
      if optTruthy venueName then
        let (vid, db') := getOrCreateVenue (venueName.getD "") domain db
        (some vid, db')
      else (none, db)
    (some { canonicalTitle := canonicalTitle
            abstract := rp.abstract
            authors := rp.authors
            year := rp.year
            venueId := venueId
            venueType := venueType
            domain := domain
            qualityFlag := qualityFlag
            doi := rp.doi
            venueName := venueName }, db')

/-! ## StructuredRepository (`src/src/database/repository.py`) -/

/-- Truthiness of the optional `year` argument (`if year:`). -/
def yearTruthy : Option Int → Bool
  | some y => !(y = 0)
  | none => false

/-- Embeds `StructuredRepository.find_paper_by_title`: first paper with
`LOWER(canonical_title) = title.lower()`, filtered by year only when the
year argument is truthy. -/
def findPaperByTitle (title : String) (year : Option Int) (db : AgentDB) : Option Nat :=
  (db.papers.find? (fun pr =>
      lowerStr pr.2.canonicalTitle = lowerStr title ∧
      (if yearTruthy year then pr.2.year = year else True))).map (fun pr => pr.1)

/-- Embeds `StructuredRepository.save_paper`: insert the row, return the new
rowid. -/
def savePaper (p : Paper) (db : AgentDB) : Nat × AgentDB :=
  (db.nextPaperId,
   { db with papers := db.papers ++ [(db.nextPaperId, p)],
             nextPaperId := db.nextPaperId + 1 })

/-- Embeds `StructuredRepository.link_paper_source`: `INSERT OR IGNORE` keyed by
`UNIQUE(paper_id, raw_id)`, with default confidence 1.0. -/
def linkPaperSource (paperId rawId : Nat) (source : String) (db : AgentDB) : AgentDB :=
  if db.links.any (fun l => l.paperId = paperId ∧ l.rawId = rawId) then db
  else { db with links := db.links ++ [{ paperId := paperId, rawId := rawId,
                                         source := source, confidence := 1 }] }

/-! ## RecordLinker batch processing (`StructuringAgent.process_batch`) -/

/-- Per-record outcome inside the batch loop. -/
inductive RecOutcome where
  | okNew     -- new paper saved and linked (`success += 1`)
  | okMerged  -- linked to an existing paper (`merged += 1; success += 1`)
  | noPaper   -- `process_raw_paper` returned None (`failed += 1`)
  deriving DecidableEq

/-- The body of the `try` block of `process_batch` for one record. -/
def recordStep (rp : RawPaper) (db : AgentDB) : AgentDB × RecOutcome :=
  match processRawPaper rp db with
  | (none, db') => (db', .noPaper)
  | (some p, db') =>
    let normalized := lowerStr (normalizeTitle p.canonicalTitle)
    match findPaperByTitle normalized p.year db' with
    | some pid => (linkPaperSource pid rp.rawId rp.source db', .okMerged)
    | none =>
      let (pid, db'') := savePaper p db'
      (linkPaperSource pid rp.rawId rp.source db'', .okNew)

/-- The summary dict returned by `process_batch`, with its exact keys. -/
def summaryDict (processed success failed merged : Nat) : List (String × Nat) :=
  [("processed", processed), ("success", success), ("failed", failed), ("merged", merged)]

/-- One iteration of the `process_batch` loop over the running
`(store, success, failed, merged)` state: the `try` body's three outcomes,
and the `except` clause for a raised collaborator error (`failed += 1`,
processing continues). -/
def batchStep (act : RawPaper → AgentDB → Except String (AgentDB × RecOutcome))
    (st : AgentDB × Nat × Nat × Nat) (rp : RawPaper) : AgentDB × Nat × Nat × Nat :=
  match act rp st.1 with
  | .ok (db', .okNew) => (db', st.2.1 + 1, st.2.2.1, st.2.2.2)
  | .ok (db', .okMerged) => (db', st.2.1 + 1, st.2.2.1, st.2.2.2 + 1)
  | .ok (db', .noPaper) => (db', st.2.1, st.2.2.1 + 1, st.2.2.2)
  | .error _ => (st.1, st.2.1, st.2.2.1 + 1, st.2.2.2)

/-- Embeds `StructuringAgent.process_batch`, parametrized by the per-record
action so that collaborator exceptions can be represented: an
`Except.error` from `act` is what the `except` clause catches. -/
def processBatchWith (act : RawPaper → AgentDB → Except String (AgentDB × RecOutcome))
    (records : List RawPaper) (db : AgentDB) : List (String × Nat) × AgentDB :=
  if records.isEmpty then (summaryDict 0 0 0 0, db)
  else
    let st := records.foldl (batchStep act) (db, 0, 0, 0)
    (summaryDict records.length st.2.1 st.2.2.1 st.2.2.2, st.1)

/-- Embeds `process_batch` with the in-repository per-record action (the path
where no collaborator exception occurs). -/
def processBatch (records : List RawPaper) (db : AgentDB) : List (String × Nat) × AgentDB :=
  processBatchWith (fun rp st => .ok (recordStep rp st)) records db

/-! ## Enhanced comment extraction (`enhance_venue_detection.py`) -/

/-- One enhanced pattern: its items, and whether its source text contains
the substring `"accepted"` (which decides confidence 0.9 vs 0.7). -/
structure EPat where
  items : List RItem
  hasAccepted : Bool
  deriving DecidableEq

/-- The pattern list for one venue of `VENUE_PATTERNS_ENHANCED`:
a bare year-bearing pattern first, then the accepted-phrasing pattern. -/
def ePatsShort (name : String) : List EPat :=
  [⟨[litP name, .repC .aposSpace 0 none, .capRep .digit 2 4], false⟩,
   ⟨[litP "accepted", .repC .space 1 none, .altLit ["by".data, "at".data, "to".data],
     .repC .space 1 none, litP name, .repC .aposSpace 0 none, .optCapRep .digit 2 4], true⟩]

/-- Embeds `VENUE_PATTERNS_ENHANCED`, in source order. -/
def VENUE_PATTERNS_ENHANCED : List (String × List EPat) :=
  [("NeurIPS",
     [⟨[litP "neurips", .repC .aposSpace 0 none, .capRep .digit 2 4], false⟩,
      ⟨[litP "nips", .repC .aposSpace 0 none, .capRep .digit 2 4], false⟩,
      ⟨[litP "accepted", .repC .space 1 none, .altLit ["by".data, "at".data, "to".data],
        .repC .space 1 none, litP "neurips", .repC .aposSpace 0 none, .optCapRep .digit 2 4], true⟩,
      ⟨[litP "neural information processing systems", .repC .aposSpace 0 none,
        .optCapRep .digit 2 4], false⟩]),
   ("ICLR",
     [⟨[litP "iclr", .repC .aposSpace 0 none, .capRep .digit 2 4], false⟩,
      ⟨[litP "accepted", .repC .space 1 none, .altLit ["by".data, "at".data, "to".data],
        .repC .space 1 none, litP "iclr", .repC .aposSpace 0 none, .optCapRep .digit 2 4], true⟩,
      ⟨[litP "international conference on learning representations", .repC .aposSpace 0 none,
        .optCapRep .digit 2 4], false⟩]),
   ("ICML",
     [⟨[litP "icml", .repC .aposSpace 0 none, .capRep .digit 2 4], false⟩,
      ⟨[litP "accepted", .repC .space 1 none, .altLit ["by".data, "at".data, "to".data],
        .repC .space 1 none, litP "icml", .repC .aposSpace 0 none, .optCapRep .digit 2 4], true⟩,
      ⟨[litP "international conference on machine learning", .repC .aposSpace 0 none,
        .optCapRep .digit 2 4], false⟩]),
   ("CVPR",
     [⟨[litP "cvpr", .repC .aposSpace 0 none, .capRep .digit 2 4], false⟩,
      ⟨[litP "accepted", .repC .space 1 none, .altLit ["by".data, "at".data, "to".data],
        .repC .space 1 none, litP "cvpr", .repC .aposSpace 0 none, .optCapRep .digit 2 4], true⟩,
      ⟨[litP "computer vision and pattern recognition", .repC .aposSpace 0 none,
        .optCapRep .digit 2 4], false⟩]),
   ("ICCV",
     [⟨[litP "iccv", .repC .aposSpace 0 none, .capRep .digit 2 4], false⟩,
      ⟨[litP "accepted", .repC .space 1 none, .altLit ["by".data, "at".data, "to".data],
        .repC .space 1 none, litP "iccv", .repC .aposSpace 0 none, .optCapRep .digit 2 4], true⟩,
      ⟨[litP "international conference on computer vision", .repC .aposSpace 0 none,
        .optCapRep .digit 2 4], false⟩]),
   ("ECCV",
     [⟨[litP "eccv", .repC .aposSpace 0 none, .capRep .digit 2 4], false⟩,
      ⟨[litP "accepted", .repC .space 1 none, .altLit ["by".data, "at".data, "to".data],
        .repC .space 1 none, litP "eccv", .repC .aposSpace 0 none, .optCapRep .digit 2 4], true⟩,
      ⟨[litP "european conference on computer vision", .repC .aposSpace 0 none,
        .optCapRep .digit 2 4], false⟩]),
   ("ACL",
     [⟨[litP "acl", .repC .aposSpace 0 none, .capRep .digit 2 4], false⟩,
      ⟨[litP "accepted", .repC .space 1 none, .altLit ["by".data, "at".data, "to".data],
        .repC .space 1 none, litP "acl", .repC .aposSpace 0 none, .optCapRep .digit 2 4], true⟩,
      ⟨[litP "association for computational linguistics", .repC .aposSpace 0 none,
        .optCapRep .digit 2 4], false⟩]),
   ("EMNLP", ePatsShort "emnlp"),
   ("NAACL", ePatsShort "naacl"),
   ("AAAI", ePatsShort "aaai"),
   ("IJCAI", ePatsShort "ijcai"),
   ("CoRL", ePatsShort "corl"),
   ("AISTATS", ePatsShort "aistats")]

/-- Parse a captured 2–4 digit year token and normalize 2-digit years to
the 2000s (`int(year_str)`, then `2000 + y` if below 100). -/
def parseYearTok (s : String) : Option Nat :=
  if s = "" then none
  else
    let n := s.data.foldl (fun acc c => acc * 10 + (c.toNat - '0'.toNat)) 0
    some (if n < 100 then 2000 + n else n)

/-- Embeds `enhance_venue_detection.extract_venue_from_comments`:
`(venue, year, confidence)` for the first matching enhanced pattern;
confidence 0.9 for a pattern whose text contains `"accepted"`, else 0.7. -/
def extractVenueFromComments (comments : String) : Option String × Option Nat × ℚ :=
  if comments = "" then (none, none, 0)
  else
    match firstSome (fun vp =>
        firstSome (fun ep =>
            (reSearch ep.items comments).map (fun cap =>
              (some vp.1, cap.bind parseYearTok,
               if ep.hasAccepted then mkRat 9 10 else mkRat 7 10)))
          vp.2)
      VENUE_PATTERNS_ENHANCED with
    | some r => r
    | none => (none, none, 0)

/-! ## Emerging-topic detection
(`ArxivAnalysisAgent.detect_emerging_topics`,
`src/src/analysis/arxiv_agent.py`) -/

/-- Exact rational division (`x / y` for `y ≠ 0`), written through
`Rat.divInt` so that it evaluates by kernel reduction. -/
def qdiv (x y : ℚ) : ℚ := Rat.divInt (x.num * (y.den : Int)) ((x.den : Int) * y.num)

/-- Exact product with a natural number, through `Rat.divInt`. -/
def qmulNat (x : ℚ) (n : Nat) : ℚ := Rat.divInt (x.num * (n : Int)) (x.den : Int)

/-- Python `round(x, 2)`: round half to even at two decimals. -/
def round2 (q : ℚ) : ℚ :=
  let n : Int := q.num * 100
  let d : Int := (q.den : Int)
  let f : Int := Int.fdiv n d
  let r : Int := n - f * d
  let k : Int :=
    if 2 * r < d then f
    else if 2 * r > d then f + 1
    else (if f % 2 = 0 then f else f + 1)
  Rat.divInt k 100

/-- One keyword-count entry of a weekly bucket's `top_keywords`. -/
structure KwCount where
  keyword : String
  count : Nat
  deriving DecidableEq

/-- One weekly bucket of the arXiv keyword timeseries. -/
structure TSBucket where
  bucket : String
  topKeywords : List KwCount
  deriving DecidableEq

/-- An `EmergingTopicRecord` as built by `detect_emerging_topics`. -/
structure EmergingTopic where
  category : String
  keyword : String
  growthRate : ℚ
  firstSeen : String
  recentCount : Int
  trend : String
  deriving DecidableEq

/-- Append a `(bucket, count)` point to a keyword's series in the
insertion-ordered `defaultdict`. -/
def addPoint : List (String × List (String × Nat)) → String → (String × Nat) →
    List (String × List (String × Nat))
  | [], kw, pt => [(kw, [pt])]
  | (k, pts) :: rest, kw, pt =>
    if k = kw then (k, pts ++ [pt]) :: rest
    else (k, pts) :: addPoint rest kw pt

/-- Collect each keyword's `(bucket, count)` series from the time-sorted
buckets, in first-appearance order (`keyword_timeseries`); falsy keywords
are skipped. -/
def collectKeywordSeries (ts : List TSBucket) : List (String × List (String × Nat)) :=
  ts.foldl (fun acc b =>
      b.topKeywords.foldl (fun acc kd =>
          if kd.keyword = "" then acc else addPoint acc kd.keyword (b.bucket, kd.count))
        acc)
    []

/-- Python `l[-n:]` for the recent window (the call sites have
`0 < n ≤ len l`). -/
def lastSlice {α : Type} (l : List α) (n : Nat) : List α :=
  if n = 0 then l else l.drop (l.length - n)

/-- Python `l[-2n:-n]` for the historical window (the call site has
`2*n ≤ len l`). -/
def histSlice {α : Type} (l : List α) (n : Nat) : List α :=
  if n = 0 then [] else (l.drop (l.length - 2 * n)).take n

/-- Embeds `recent_counts`: the counts of the last `n` data points. -/
def recentCountsOf (dp : List (String × Nat)) (n : Nat) : List Nat :=
  (lastSlice dp n).map (fun p => p.2)

/-- Embeds `historical_counts`: the counts of the `n` points preceding the
recent window. -/
def histCountsOf (dp : List (String × Nat)) (n : Nat) : List Nat :=
  (histSlice dp n).map (fun p => p.2)

/-- Embeds `recent_avg`: mean of the counts of the last `n` data points. -/
def recentAvgOf (dp : List (String × Nat)) (n : Nat) : ℚ :=
  Rat.divInt ((recentCountsOf dp n).sum : Int) ((recentCountsOf dp n).length : Int)

/-- Embeds `historical_avg`: mean of the counts of the `n` points preceding the
recent window when at least `2n` points exist, else `0.1`. -/
def histAvgOf (dp : List (String × Nat)) (n : Nat) : ℚ :=
  if 2 * n ≤ dp.length then
    if (histCountsOf dp n).isEmpty then mkRat 1 10
    else Rat.divInt ((histCountsOf dp n).sum : Int) ((histCountsOf dp n).length : Int)
  else mkRat 1 10

/-- Embeds `growth_rate`: `recent_avg / historical_avg` when the latter is
positive, else `recent_avg * 10`. -/
def growthOf (dp : List (String × Nat)) (n : Nat) : ℚ :=
  if histAvgOf dp n > 0 then qdiv (recentAvgOf dp n) (histAvgOf dp n)
  else qmulNat (recentAvgOf dp n) 10

/-- The trend classification of `detect_emerging_topics`. -/
def classifyTrend (growth threshold : ℚ) : String :=
  if growth ≥ threshold then "rising"
  else if growth ≤ mkRat 7 10 then "declining"
  else "stable"

/-- The `EmergingTopicRecord` appended for a rising keyword whose sorted
data points are `dp`. -/
def risingRecord (category keyword : String) (dp : List (String × Nat)) (n : Nat) :
    EmergingTopic :=
  { category := category
    keyword := keyword
    growthRate := round2 (growthOf dp n)
    firstSeen := (dp.head?.map (fun p => p.1)).getD ""
    recentCount := (recentAvgOf dp n).floor
    trend := "rising" }

/-- The per-keyword body of the `detect_emerging_topics` loop: skip a
keyword with fewer than `recentWindow` points, otherwise sort its points
by bucket, compute the averages and the growth rate, and keep the keyword
only when its trend is rising. -/
def analyzeKeyword (category keyword : String) (threshold : ℚ) (recentWindow : Nat)
    (pts : List (String × Nat)) : Option EmergingTopic :=
  if pts.length < recentWindow then none
  else if classifyTrend (growthOf (sortStrAsc (fun p => p.1) pts) recentWindow) threshold
        = "rising" ∧ growthOf (sortStrAsc (fun p => p.1) pts) recentWindow ≥ threshold then
    some (risingRecord category keyword (sortStrAsc (fun p => p.1) pts) recentWindow)
  else none

/-- Embeds `ArxivAnalysisAgent.detect_emerging_topics` (pure part): needs at
least `2 * recentWindow` weekly buckets, analyzes each keyword's series,
and returns the rising keywords sorted by growth rate descending. -/
def detectEmergingTopics (ts : List TSBucket) (category : String)
    (threshold : ℚ := mkRat 3 2) (recentWindow : Nat := 4) : List EmergingTopic :=
  if ts.length < recentWindow * 2 then []
  else
    let sorted := sortStrAsc (fun b => b.bucket) ts
    let series := collectKeywordSeries sorted
    let topics := series.filterMap (fun p =>
      analyzeKeyword category p.1 threshold recentWindow p.2)
    sortQDesc (fun t => t.growthRate) topics

/-! ## The C8 claim's own window computation, from the spec's words

The claim describes `recentAvg`/`historicalAvg` as averages over the last
`N` *buckets* and the `N` *buckets* before them.  These definitions follow
that wording (a keyword absent from a bucket counts 0 there), to be
compared with the source's per-data-point computation above. -/

/-- The count a bucket reports for a keyword, 0 when absent. -/
def specBucketCount (b : TSBucket) (kw : String) : Nat :=
  ((b.topKeywords.find? (fun kd => kd.keyword = kw)).map (fun kd => kd.count)).getD 0

/-- Spec wording: the keyword's average count over the last `n` buckets
of the time-sorted series. -/
def specRecentAvg (ts : List TSBucket) (kw : String) (n : Nat) : ℚ :=
  Rat.divInt
    (((lastSlice (sortStrAsc (fun b => b.bucket) ts) n).map
        (fun b => specBucketCount b kw)).sum : Int)
    (n : Int)

/-- Spec wording: the keyword's average count over the `n` buckets
immediately before the recent window. -/
def specHistAvg (ts : List TSBucket) (kw : String) (n : Nat) : ℚ :=
  Rat.divInt
    (((histSlice (sortStrAsc (fun b => b.bucket) ts) n).map
        (fun b => specBucketCount b kw)).sum : Int)
    (n : Int)

/-- Spec wording: `growthRate = recentAvg / historicalAvg` over the
bucket windows. -/
def specGrowth (ts : List TSBucket) (kw : String) (n : Nat) : ℚ :=
  qdiv (specRecentAvg ts kw n) (specHistAvg ts kw n)

/-! ## Concrete fixtures used by the claim theorems -/

/-- The record of the concrete C2 scenario: an arXiv record whose only
venue evidence is `comments = "accepted by NeurIPS'23"`. -/
def c2Record : RawPaper :=
  { source := "arxiv", sourcePaperId := "2310.00001", title := "Sample",
    comments := some "accepted by NeurIPS'23" }

/-- The record of the C4 witness: matching `venue_raw` and a matching
`comments` entry for a different venue. -/
def c4Record : RawPaper :=
  { source := "arxiv", sourcePaperId := "1", title := "t",
    venueRaw := some "ICML 2024", comments := some "CVPR 2024" }

/-- C3 witness, first record (OpenReview). -/
def c3RecordA : RawPaper :=
  { source := "openreview", sourcePaperId := "a", title := "Deep  Linkage  Study",
    year := some 2023, rawId := 11 }

/-- C3 witness, second record (arXiv), same normalized title and year. -/
def c3RecordB : RawPaper :=
  { source := "arxiv", sourcePaperId := "b", title := "deep linkage study",
    year := some 2023, rawId := 12 }

/-- C5 witness record: matches the pre-existing paper below. -/
def c5Record : RawPaper :=
  { source := "arxiv", sourcePaperId := "c", title := "A  Stored  Paper",
    year := some 2022, venueRaw := some "ICML 2022", rawId := 21 }

/-- C5 witness store: one already-persisted paper with a venue and domain
attribution that differs from what `c5Record` would resolve. -/
def c5Store : AgentDB :=
  { papers := [(7, { canonicalTitle := "a stored paper", year := some 2022,
                     venueId := some 3, domain := some "NLP",
                     qualityFlag := "accepted", venueType := "conference" })],
    venues := [(3, { canonicalName := "EMNLP", domain := some "NLP",
                     venueType := some "conference" })],
    links := [{ paperId := 7, rawId := 20, source := "openreview", confidence := 1 }],
    nextPaperId := 8, nextVenueId := 4, venueCache := [] }

/-- C9 counterexample record: an empty title. -/
def c9EmptyRecord : RawPaper :=
  { source := "arxiv", sourcePaperId := "e", title := "   " }

/-- C9 witness record: a well-formed record. -/
def c9GoodRecord : RawPaper :=
  { source := "arxiv", sourcePaperId := "g", title := "A Good Record",
    year := some 2024, rawId := 31 }

/-- C9 witness action: the collaborator raises on raw id 31 and behaves
normally otherwise. -/
def c9FaultyAct (rp : RawPaper) (db : AgentDB) : Except String (AgentDB × RecOutcome) :=
  if rp.rawId = 31 then Except.error "store unreachable" else Except.ok (recordStep rp db)

/-- One weekly bucket with a single keyword count, for the C8 scenario. -/
def c8Bucket (b : String) (c : Nat) : TSBucket :=
  { bucket := b, topKeywords := [{ keyword := "retrieval augmented", count := c }] }

/-- The C8 timeseries: historical weekly counts `[1,1,2,2]` followed by
recent counts `[6,7,8,9]`. -/
def c8Timeseries : List TSBucket :=
  [c8Bucket "2024-W01" 1, c8Bucket "2024-W02" 1, c8Bucket "2024-W03" 2,
   c8Bucket "2024-W04" 2, c8Bucket "2024-W05" 6, c8Bucket "2024-W06" 7,
   c8Bucket "2024-W07" 8, c8Bucket "2024-W08" 9]

/-- An empty weekly bucket (the keyword is absent). -/
def c8EmptyBucket (b : String) : TSBucket := { bucket := b, topKeywords := [] }

/-- A bucket carrying only the keyword `"fading topic"`. -/
def c8FadingBucket (b : String) (c : Nat) : TSBucket :=
  { bucket := b, topKeywords := [{ keyword := "fading topic", count := c }] }

/-- Eight weekly buckets in which `"fading topic"` appears with count 8
in the first four weeks and is absent from the last four. -/
def c8FadingTS : List TSBucket :=
  [c8FadingBucket "2024-W01" 8, c8FadingBucket "2024-W02" 8,
   c8FadingBucket "2024-W03" 8, c8FadingBucket "2024-W04" 8,
   c8EmptyBucket "2024-W05", c8EmptyBucket "2024-W06",
   c8EmptyBucket "2024-W07", c8EmptyBucket "2024-W08"]

/-- The C8 per-keyword data points (bucket, count), as collected from
`c8Timeseries`. -/
def c8Points : List (String × Nat) :=
  [("2024-W01", 1), ("2024-W02", 1), ("2024-W03", 2), ("2024-W04", 2),
   ("2024-W05", 6), ("2024-W06", 7), ("2024-W07", 8), ("2024-W08", 9)]

/-! ## Helper lemmas -/

theorem caseTable_lower_fixed :
    caseTable.all (fun p => caseTable.lookup p.2 == none) = true := by decide

theorem lookup_mem_pair {α β : Type} [BEq α] [LawfulBEq α] :
    ∀ {l : List (α × β)} {a : α} {b : β}, l.lookup a = some b → (a, b) ∈ l := by
  intro l
  induction l with
  | nil => intro a b h; simp [List.lookup] at h
  | cons p rest ih =>
    intro a b h
    cases p with
    | mk k v =>
      rw [List.lookup.eq_def] at h
      simp only at h
      by_cases hk : a == k
      · rw [hk] at h
        simp at hk h
        simp [hk, h]
      · rw [Bool.not_eq_true] at hk
        rw [hk] at h
        exact List.mem_cons_of_mem _ (ih h)

theorem lowerChar_idem (c : Char) : lowerChar (lowerChar c) = lowerChar c := by
  unfold lowerChar
  cases h : caseTable.lookup c with
  | none => simp [h]
  | some v =>
    have hmem : (c, v) ∈ caseTable := lookup_mem_pair h
    have := List.all_eq_true.mp caseTable_lower_fixed _ hmem
    simp only [Option.getD_some]
    simp only [beq_iff_eq] at this
    simp [this]

theorem lowerStr_idem (s : String) : lowerStr (lowerStr s) = lowerStr s := by
  simp only [lowerStr, List.map_map]
  congr 1
  exact List.map_congr_left (fun c _ => lowerChar_idem c)

theorem insertQDesc_length {α : Type} (key : α → ℚ) (x : α) (l : List α) :
    (insertQDesc key x l).length = l.length + 1 := by
  induction l with
  | nil => rfl
  | cons y ys ih =>
    simp only [insertQDesc]
    split
    · simp [ih]
    · simp

theorem sortQDesc_length {α : Type} (key : α → ℚ) (l : List α) :
    (sortQDesc key l).length = l.length := by
  induction l with
  | nil => rfl
  | cons x xs ih => simp [sortQDesc, insertQDesc_length, ih]

/-- Inserting an element whose key is strictly below the head's key keeps
the head. -/
theorem insertQDesc_head_lt {α : Type} (key : α → ℚ) (a x : α) (t : List α)
    (h : key a < key x) :
    insertQDesc key a (x :: t) = x :: insertQDesc key a t := by
  simp [insertQDesc, h]

theorem mem_of_mem_insertQDesc {α : Type} (key : α → ℚ) (w z : α) :
    ∀ (m : List α), z ∈ insertQDesc key w m → z = w ∨ z ∈ m := by
  intro m
  induction m with
  | nil => intro hz; simp [insertQDesc] at hz; exact Or.inl hz
  | cons d ds ihd =>
    intro hz
    simp only [insertQDesc] at hz
    split at hz
    · rcases List.mem_cons.mp hz with h1 | h1
      · exact Or.inr (by simp [h1])
      · rcases ihd h1 with h2 | h2
        · exact Or.inl h2
        · exact Or.inr (List.mem_cons_of_mem _ h2)
    · rcases List.mem_cons.mp hz with h1 | h1
      · exact Or.inl h1
      · exact Or.inr h1

theorem mem_of_mem_sortQDesc {α : Type} (key : α → ℚ) (z : α) :
    ∀ (l : List α), z ∈ sortQDesc key l → z ∈ l := by
  intro l
  induction l with
  | nil => intro hz; simp [sortQDesc] at hz
  | cons c cs ihc =>
    intro hz
    simp only [sortQDesc] at hz
    rcases mem_of_mem_insertQDesc key c z (sortQDesc key cs) hz with h1 | h1
    · simp [h1]
    · exact List.mem_cons_of_mem _ (ihc h1)

/-- A strict maximum of the list becomes the head of the descending
sort. -/
theorem sortQDesc_head_of_strict_max {α : Type} (key : α → ℚ) (x : α) :
    ∀ (l : List α), x ∈ l → (∀ y ∈ l, y ≠ x → key y < key x) →
    ∃ t, sortQDesc key l = x :: t := by
  intro l
  induction l with
  | nil => intro h; exact absurd h (List.not_mem_nil x)
  | cons a as ih =>
    intro hmem hmax
    by_cases hax : a = x
    · subst hax
      simp only [sortQDesc]
      cases hs : sortQDesc key as with
      | nil => exact ⟨[], rfl⟩
      | cons b t =>
        by_cases hbx : b = a
        · subst hbx
          simp only [insertQDesc]
          rw [if_neg (lt_irrefl _)]
          exact ⟨b :: t, rfl⟩
        · have hb_mem : b ∈ as := by
            apply mem_of_mem_sortQDesc key b as
            rw [hs]; exact List.mem_cons_self b t
          have hlt : key b < key a := hmax b (List.mem_cons_of_mem _ hb_mem) hbx
          simp only [insertQDesc]
          rw [if_neg (not_lt.mpr (le_of_lt hlt))]
          exact ⟨b :: t, rfl⟩
    · have hx_as : x ∈ as := by
        rcases List.mem_cons.mp hmem with h | h
        · exact absurd h.symm hax
        · exact h
      obtain ⟨t, ht⟩ := ih hx_as (fun y hy hne => hmax y (List.mem_cons_of_mem _ hy) hne)
      have ha_lt : key a < key x := hmax a (List.mem_cons_self a as) hax
      simp only [sortQDesc, ht]
      rw [insertQDesc_head_lt key a x t ha_lt]
      exact ⟨insertQDesc key a t, rfl⟩

/-- The greedy-accept fold of `deduplicate_fuzzy` can only grow the
accumulator by at most one element per input. -/
theorem dedupFuzzy_fold_length (th : ℚ) :
    ∀ (l acc : List (String × ℚ)),
    (l.foldl (fun acc p =>
        if acc.any (fun e => KeywordFilter.judgedSimilar th p.1 e.1) then acc
        else acc ++ [p]) acc).length ≤ acc.length + l.length := by
  intro l
  induction l with
  | nil => intro acc; simp
  | cons p ps ih =>
    intro acc
    simp only [List.foldl_cons]
    split
    · exact le_trans (ih acc) (by simp only [List.length_cons]; omega)
    · exact le_trans (ih (acc ++ [p]))
        (by simp only [List.length_append, List.length_cons, List.length_nil]; omega)

/-- Elements already accepted stay in the fold's result. -/
theorem dedupFuzzy_fold_mem (th : ℚ) (x : String × ℚ) :
    ∀ (l acc : List (String × ℚ)), x ∈ acc →
    x ∈ l.foldl (fun acc p =>
        if acc.any (fun e => KeywordFilter.judgedSimilar th p.1 e.1) then acc
        else acc ++ [p]) acc := by
  intro l
  induction l with
  | nil => intro acc h; simpa using h
  | cons p ps ih =>
    intro acc h
    simp only [List.foldl_cons]
    split
    · exact ih acc h
    · exact ih (acc ++ [p]) (List.mem_append_left _ h)

theorem dedupFuzzy_length (l : List (String × ℚ)) (th : ℚ) :
    (KeywordFilter.dedupFuzzy l th).length ≤ l.length := by
  unfold KeywordFilter.dedupFuzzy
  have h := dedupFuzzy_fold_length th (sortQDesc (fun p => p.2) l) []
  simpa [sortQDesc_length] using h

/-! ## C1: bounded output of the keyword-curation pipeline -/

/-- C1.  For every input list of (term, score) pairs, the keyword-curation
pipeline — `KeywordFilter.process` with the default configuration followed
by the `[:10]` cap of `AnalysisAgent.process_paper` — returns at most 10
keywords. -/
theorem curation_output_bounded (rawKeywords : List (String × ℚ)) :
    (processPaperKeywords rawKeywords).length ≤ 10 := by
  unfold processPaperKeywords
  rw [List.length_take]
  exact min_le_left _ _

/-! ## C6: the concrete curation scenario -/

/-- C6.  With the default configuration, processing
`[("Diffusion Models", 0.9), ("diffusion model", 0.85), ("GANs", 0.8)]`
yields exactly `[("diffusion model", 0.9), ("generative adversarial
network", 0.8)]`: the plural/case variant is fuzzy-merged into the
higher-scoring canonical form and the acronym is synonym-canonicalized. -/
theorem curation_concrete_scenario :
    KeywordFilter.process defaultFilter
      [("Diffusion Models", mkRat 9 10), ("diffusion model", mkRat 85 100),
       ("GANs", mkRat 8 10)] true (mkRat 85 100)
    = [("diffusion model", mkRat 9 10),
       ("generative adversarial network", mkRat 8 10)] := by decide

/-! ## C10: short synonym keys are unreachable through `process` -/

/-- C10.  Because the noise-pattern length filter (minimum length 3) runs
before synonym canonicalization, a candidate whose normalized form is
`"ml"`, `"ai"`, `"cv"`, `"rl"` or `"dl"` is dropped by
`KeywordFilter.process` no matter its score or position: the output is the
same as if the candidate were absent, so those synonym expansions are
unreachable. -/
theorem short_synonym_keys_unreachable (kw : String)
    (hkw : kw ∈ ["ml", "ai", "cv", "rl", "dl"]) (s : ℚ)
    (l1 l2 : List (String × ℚ)) (fz : Bool) (th : ℚ) :
    KeywordFilter.process defaultFilter (l1 ++ (kw, s) :: l2) fz th
    = KeywordFilter.process defaultFilter (l1 ++ l2) fz th := by
  have hstage : KeywordFilter.stage3 defaultFilter (l1 ++ (kw, s) :: l2)
      = KeywordFilter.stage3 defaultFilter (l1 ++ l2) := by
    unfold KeywordFilter.stage3
    rw [List.filterMap_append, List.filterMap_append, List.filterMap_cons]
    obtain ⟨nk, hnk, hsf⟩ : ∃ nk, KeywordFilter.normalize kw = some nk ∧
        KeywordFilter.shouldFilter defaultFilter nk = true := by
      fin_cases hkw
      · exact ⟨"ml", by decide, by decide⟩
      · exact ⟨"ai", by decide, by decide⟩
      · exact ⟨"cv", by decide, by decide⟩
      · exact ⟨"rl", by decide, by decide⟩
      · exact ⟨"dl", by decide, by decide⟩
    simp only [hnk, hsf, if_true]
  unfold KeywordFilter.process
  rw [hstage]

/-- Witness for C10 at `kw = "ml"`. -/
theorem short_synonym_keys_unreachable_witness :
    "ml" ∈ ["ml", "ai", "cv", "rl", "dl"] ∧
    KeywordFilter.process defaultFilter
      [("deep equilibrium", mkRat 1 2), ("ml", mkRat 99 100)] true (mkRat 85 100)
    = KeywordFilter.process defaultFilter [("deep equilibrium", mkRat 1 2)] true (mkRat 85 100) :=
  ⟨by decide,
   short_synonym_keys_unreachable "ml" (by decide) (mkRat 99 100)
     [("deep equilibrium", mkRat 1 2)] [] true (mkRat 85 100)⟩

/-! ## Title normalization is idempotent -/

theorem go_notspace (c : Char) (cs acc : List Char) (h : pyIsSpace c = false) :
    splitWS.go (c :: cs) acc = splitWS.go cs (c :: acc) := by
  simp [splitWS.go, h]

theorem go_token (xd : List Char) (h : ∀ c ∈ xd, pyIsSpace c = false) :
    ∀ (acc rest : List Char),
      splitWS.go (xd ++ rest) acc = splitWS.go rest (xd.reverse ++ acc) := by
  induction xd with
  | nil => intro acc rest; simp
  | cons c cd ih =>
    intro acc rest
    have hc : pyIsSpace c = false := h c (List.mem_cons_self _ _)
    rw [List.cons_append, go_notspace c (cd ++ rest) acc hc,
        ih (fun x hx => h x (List.mem_cons_of_mem _ hx)) (c :: acc) rest]
    simp

theorem splitWS_tokens_ok :
    ∀ (cs acc : List Char), (∀ c ∈ acc, pyIsSpace c = false) →
    ∀ x ∈ splitWS.go cs acc, x ≠ "" ∧ ∀ c ∈ x.data, pyIsSpace c = false := by
  intro cs
  induction cs with
  | nil =>
    intro acc hacc x hx
    simp only [splitWS.go] at hx
    split at hx
    · simp at hx
    · next hne =>
      rw [List.mem_singleton] at hx
      subst hx
      constructor
      · intro hempty
        have : acc.reverse = [] := by
          have := congrArg String.data hempty
          simpa using this
        rw [List.reverse_eq_nil_iff] at this
        subst this
        simp at hne
      · intro c hc
        exact hacc c (by simpa using hc)
  | cons c cs ih =>
    intro acc hacc x hx
    simp only [splitWS.go] at hx
    by_cases hsp : pyIsSpace c = true
    · rw [if_pos hsp] at hx
      split at hx
      · exact ih [] (by simp) x hx
      · next hne =>
        rcases List.mem_cons.mp hx with h1 | h1
        · subst h1
          constructor
          · intro hempty
            have : acc.reverse = [] := by
              have := congrArg String.data hempty
              simpa using this
            rw [List.reverse_eq_nil_iff] at this
            subst this
            simp at hne
          · intro d hd
            exact hacc d (by simpa using hd)
        · exact ih [] (by simp) x h1
    · rw [Bool.not_eq_true] at hsp
      rw [if_neg (by simp [hsp])] at hx
      refine ih (c :: acc) ?_ x hx
      intro d hd
      rcases List.mem_cons.mp hd with h1 | h1
      · subst h1; exact hsp
      · exact hacc d h1

theorem splitWS_tokens (s : String) :
    ∀ x ∈ splitWS s, x ≠ "" ∧ ∀ c ∈ x.data, pyIsSpace c = false :=
  splitWS_tokens_ok s.data [] (by simp)

theorem splitWS_joinSpace :
    ∀ (ts : List String), (∀ x ∈ ts, x ≠ "" ∧ ∀ c ∈ x.data, pyIsSpace c = false) →
    splitWS (joinSpace ts) = ts := by
  intro ts
  induction ts with
  | nil => intro _; rfl
  | cons x xs ih =>
    intro h
    have hx := h x (List.mem_cons_self _ _)
    have hxd : x.data ≠ [] := by
      intro hd
      exact hx.1 (by cases x; simp at hd; simp [hd])
    cases xs with
    | nil =>
      show splitWS.go x.data [] = [x]
      have h0 : splitWS.go x.data [] = splitWS.go [] x.data.reverse := by
        simpa using go_token x.data hx.2 [] []
      rw [h0]
      simp only [splitWS.go]
      rw [if_neg (by simpa using hxd)]
      simp
    | cons y ys =>
      show splitWS.go (joinSpace (x :: y :: ys)).data [] = x :: y :: ys
      have hjoin : (joinSpace (x :: y :: ys)).data
          = x.data ++ (' ' :: (joinSpace (y :: ys)).data) := by
        show (x ++ " " ++ joinSpace (y :: ys)).data = _
        simp [String.data_append]
      rw [hjoin, go_token x.data hx.2 [] _]
      simp only [splitWS.go]
      rw [if_pos (by simp [pyIsSpace])]
      rw [if_neg (by simpa using hxd)]
      have htail : splitWS.go (joinSpace (y :: ys)).data [] = y :: ys :=
        ih (fun z hz => h z (List.mem_cons_of_mem _ hz))
      rw [htail]
      simp

theorem normalizeTitle_idem (t : String) :
    normalizeTitle (normalizeTitle t) = normalizeTitle t := by
  unfold normalizeTitle
  by_cases ht : t = ""
  · simp [ht]
  · rw [if_neg ht]
    by_cases hr : joinSpace (splitWS t) = ""
    · simp [hr]
    · rw [if_neg hr, splitWS_joinSpace (splitWS t) (splitWS_tokens t)]

/-! ## Store-preservation lemmas for the record linker -/

theorem getOrCreateVenue_preserve (vn : String) (dom : Option String) (db : AgentDB) :
    ((getOrCreateVenue vn dom db).2).papers = db.papers ∧
    ((getOrCreateVenue vn dom db).2).links = db.links ∧
    ((getOrCreateVenue vn dom db).2).nextPaperId = db.nextPaperId := by
  unfold getOrCreateVenue saveVenue
  cases db.venueCache.lookup vn with
  | some vid => exact ⟨rfl, rfl, rfl⟩
  | none =>
    cases getVenueByName vn db with
    | some pr => exact ⟨rfl, rfl, rfl⟩
    | none => exact ⟨rfl, rfl, rfl⟩

theorem processRawPaper_some (rp : RawPaper) (db : AgentDB)
    (h : normalizeTitle rp.title ≠ "") :
    ∃ p db', processRawPaper rp db = (some p, db') ∧
      p.canonicalTitle = normalizeTitle rp.title ∧
      p.year = rp.year ∧
      db'.papers = db.papers ∧ db'.links = db.links ∧
      db'.nextPaperId = db.nextPaperId := by
  unfold processRawPaper
  rw [if_neg h]
  by_cases hv : optTruthy (detectVenue rp).1 = true
  · simp only [hv, if_true]
    obtain ⟨h1, h2, h3⟩ := getOrCreateVenue_preserve ((detectVenue rp).1.getD "")
      (classifyDomain rp) db
    exact ⟨_, _, rfl, rfl, rfl, h1, h2, h3⟩
  · simp only [hv, if_false, Bool.false_eq_true]
    exact ⟨_, _, rfl, rfl, rfl, rfl, rfl, rfl⟩

theorem findPaperByTitle_congr (t : String) (y : Option Int) (db1 db2 : AgentDB)
    (h : db1.papers = db2.papers) :
    findPaperByTitle t y db1 = findPaperByTitle t y db2 := by
  unfold findPaperByTitle
  rw [h]

theorem linkPaperSource_papers (pid rid : Nat) (src : String) (db : AgentDB) :
    (linkPaperSource pid rid src db).papers = db.papers := by
  unfold linkPaperSource
  split <;> rfl

theorem linkPaperSource_nextPid (pid rid : Nat) (src : String) (db : AgentDB) :
    (linkPaperSource pid rid src db).nextPaperId = db.nextPaperId := by
  unfold linkPaperSource
  split <;> rfl

theorem linkPaperSource_links (pid rid : Nat) (src : String) (db : AgentDB) :
    (linkPaperSource pid rid src db).links
      = (if db.links.any (fun l => l.paperId = pid ∧ l.rawId = rid) then db.links
         else db.links ++ [{ paperId := pid, rawId := rid,
                             source := src, confidence := 1 }]) := by
  unfold linkPaperSource
  split <;> rfl

/-- The merge path of the batch loop body: an existing paper only gains a
provenance link; the `papers` table is untouched. -/
theorem recordStep_merge (rp : RawPaper) (db : AgentDB) (pid : Nat)
    (h1 : normalizeTitle rp.title ≠ "")
    (h2 : findPaperByTitle (lowerStr (normalizeTitle rp.title)) rp.year db = some pid) :
    ((recordStep rp db).1).papers = db.papers ∧
    ((recordStep rp db).1).links
      = (if db.links.any (fun l => l.paperId = pid ∧ l.rawId = rp.rawId) then db.links
         else db.links ++ [{ paperId := pid, rawId := rp.rawId,
                             source := rp.source, confidence := 1 }]) ∧
    ((recordStep rp db).1).nextPaperId = db.nextPaperId ∧
    (recordStep rp db).2 = RecOutcome.okMerged := by
  obtain ⟨p, db', hpr, hct, hyr, hpp, hpl, hpn⟩ := processRawPaper_some rp db h1
  have hfind : findPaperByTitle (lowerStr (normalizeTitle p.canonicalTitle)) p.year db'
      = some pid := by
    rw [hct, normalizeTitle_idem, hyr, findPaperByTitle_congr _ _ _ db hpp]
    exact h2
  unfold recordStep
  rw [hpr]
  simp only [hfind]
  refine ⟨?_, ?_, ?_, trivial⟩
  · rw [linkPaperSource_papers]; exact hpp
  · rw [linkPaperSource_links, hpl]
  · rw [linkPaperSource_nextPid]; exact hpn

/-- The create path of the batch loop body: a fresh paper row is appended
and its first provenance link created. -/
theorem recordStep_new (rp : RawPaper) (db : AgentDB)
    (h1 : normalizeTitle rp.title ≠ "")
    (h2 : findPaperByTitle (lowerStr (normalizeTitle rp.title)) rp.year db = none)
    (h3 : ∀ l ∈ db.links, l.paperId ≠ db.nextPaperId) :
    ∃ p db₁, recordStep rp db = (db₁, RecOutcome.okNew) ∧
      db₁.papers = db.papers ++ [(db.nextPaperId, p)] ∧
      db₁.links = db.links ++ [{ paperId := db.nextPaperId, rawId := rp.rawId,
                                 source := rp.source, confidence := 1 }] ∧
      db₁.nextPaperId = db.nextPaperId + 1 ∧
      p.canonicalTitle = normalizeTitle rp.title ∧
      p.year = rp.year := by
  obtain ⟨p, db', hpr, hct, hyr, hpp, hpl, hpn⟩ := processRawPaper_some rp db h1
  have hfind : findPaperByTitle (lowerStr (normalizeTitle p.canonicalTitle)) p.year db'
      = none := by
    rw [hct, normalizeTitle_idem, hyr, findPaperByTitle_congr _ _ _ db hpp]
    exact h2
  unfold recordStep
  rw [hpr]
  simp only [hfind]
  simp only [savePaper]
  refine ⟨p, _, rfl, ?_, ?_, ?_, hct, hyr⟩
  · rw [linkPaperSource_papers]
    simp only
    rw [hpp, hpn]
  · rw [linkPaperSource_links]
    simp only
    have hany : (db'.links.any
        (fun l => l.paperId = db'.nextPaperId ∧ l.rawId = rp.rawId)) = false := by
      rw [hpl, hpn, List.any_eq_false]
      intro l hl
      simp only [decide_eq_true_eq, not_and]
      intro hpid
      exact absurd hpid (h3 l hl)
    rw [if_neg (by rw [hany]; exact Bool.false_ne_true), hpl, hpn]
  · rw [linkPaperSource_nextPid]
    simp only
    rw [hpn]

/-! ## C3: linkage uniqueness -/

/-- C3.  Two raw records with non-empty titles that case-fold/collapse to
the same string and carry the same year, arriving from different sources
into a store with no matching paper, produce exactly one new
`CanonicalPaper` row and exactly two `ProvenanceLink` rows, both pointing
at that paper (and the batch summary counts one merge). -/
theorem record_linkage_unique (rA rB : RawPaper) (db : AgentDB)
    (hA : normalizeTitle rA.title ≠ "") (hB : normalizeTitle rB.title ≠ "")
    (hT : lowerStr (normalizeTitle rA.title) = lowerStr (normalizeTitle rB.title))
    (hY : rA.year = rB.year)
    (hRaw : rA.rawId ≠ rB.rawId) (_hSrc : rA.source ≠ rB.source)
    (hNone : findPaperByTitle (lowerStr (normalizeTitle rA.title)) rA.year db = none)
    (hFresh : ∀ l ∈ db.links, l.paperId ≠ db.nextPaperId) :
    ∃ p, ((processBatch [rA, rB] db).2).papers = db.papers ++ [(db.nextPaperId, p)] ∧
      ((processBatch [rA, rB] db).2).links = db.links ++
        [{ paperId := db.nextPaperId, rawId := rA.rawId, source := rA.source, confidence := 1 },
         { paperId := db.nextPaperId, rawId := rB.rawId, source := rB.source, confidence := 1 }] ∧
      (processBatch [rA, rB] db).1 = summaryDict 2 2 0 1 := by
  obtain ⟨p, dbA, hstepA, hApapers, hAlinks, hAnext, hAct, hAyr⟩ :=
    recordStep_new rA db hA hNone hFresh
  -- the second record finds the paper just created
  have hfindB : findPaperByTitle (lowerStr (normalizeTitle rB.title)) rB.year dbA
      = some db.nextPaperId := by
    unfold findPaperByTitle
    rw [hApapers]
    rw [List.find?_append]
    have hfirst : (db.papers.find? (fun pr =>
        decide (lowerStr pr.2.canonicalTitle = lowerStr (lowerStr (normalizeTitle rB.title)) ∧
          (if yearTruthy rB.year = true then pr.2.year = rB.year else True)))) = none := by
      rw [lowerStr_idem, ← hT, ← hY]
      have hNone' := hNone
      unfold findPaperByTitle at hNone'
      rw [lowerStr_idem] at hNone'
      exact Option.map_eq_none'.mp hNone'
    rw [hfirst]
    simp only [Option.none_or]
    have hmatch : (decide (lowerStr p.canonicalTitle
        = lowerStr (lowerStr (normalizeTitle rB.title)) ∧
        (if yearTruthy rB.year = true then p.year = rB.year else True))) = true := by
      rw [decide_eq_true_eq]
      constructor
      · rw [hAct, lowerStr_idem, hT]
      · split
        · rw [hAyr, hY]
        · trivial
    simp only [List.find?_cons, hmatch]
    rfl
  have hstepB : ((recordStep rB dbA).1).papers = dbA.papers ∧
      ((recordStep rB dbA).1).links
        = (if dbA.links.any (fun l => l.paperId = db.nextPaperId ∧ l.rawId = rB.rawId)
           then dbA.links
           else dbA.links ++ [{ paperId := db.nextPaperId, rawId := rB.rawId,
                                source := rB.source, confidence := 1 }]) ∧
      ((recordStep rB dbA).1).nextPaperId = dbA.nextPaperId ∧
      (recordStep rB dbA).2 = RecOutcome.okMerged :=
    recordStep_merge rB dbA db.nextPaperId hB hfindB
  have hBany : (dbA.links.any
      (fun l => l.paperId = db.nextPaperId ∧ l.rawId = rB.rawId)) = false := by
    rw [hAlinks, List.any_eq_false]
    intro l hl
    simp only [decide_eq_true_eq, not_and]
    rcases List.mem_append.mp hl with h | h
    · intro hpid; exact absurd hpid (hFresh l h)
    · rw [List.mem_singleton] at h
      subst h
      intro _
      simp only
      exact hRaw
  -- unfold the two-record batch into the two record steps
  have hrB : recordStep rB dbA = ((recordStep rB dbA).1, RecOutcome.okMerged) := by
    conv_lhs => rw [← Prod.mk.eta (p := recordStep rB dbA)]
    rw [hstepB.2.2.2]
  have hcalc : processBatch [rA, rB] db
      = (summaryDict 2 2 0 1, (recordStep rB dbA).1) := by
    have h1 : batchStep (fun rp st => Except.ok (recordStep rp st)) (db, 0, 0, 0) rA
        = (dbA, 1, 0, 0) := by
      unfold batchStep
      simp only [hstepA]
    have h2 : batchStep (fun rp st => Except.ok (recordStep rp st)) (dbA, 1, 0, 0) rB
        = ((recordStep rB dbA).1, 2, 0, 1) := by
      unfold batchStep
      simp only
      rw [hrB]
    unfold processBatch processBatchWith
    simp only [List.isEmpty_cons, List.foldl_cons, List.foldl_nil, h1, h2]
    rfl
  refine ⟨p, ?_, ?_, ?_⟩
  · rw [hcalc]
    simp only
    rw [hstepB.1, hApapers]
  · rw [hcalc]
    simp only
    rw [hstepB.2.1, hBany]
    simp only [Bool.false_eq_true, if_false]
    rw [hAlinks, List.append_assoc]
    rfl
  · rw [hcalc]

/-- Witness for C3: an OpenReview record and an arXiv record whose titles
normalize identically merge into one paper with two links. -/
theorem record_linkage_unique_witness :
    (normalizeTitle "Deep  Linkage  Study" ≠ "") ∧
    (lowerStr (normalizeTitle "Deep  Linkage  Study")
      = lowerStr (normalizeTitle "deep linkage study")) ∧
    (∃ p, ((processBatch [c3RecordA, c3RecordB] {}).2).papers
        = [] ++ [(1, p)] ∧
      ((processBatch [c3RecordA, c3RecordB] {}).2).links = [] ++
        [{ paperId := 1, rawId := 11, source := "openreview", confidence := 1 },
         { paperId := 1, rawId := 12, source := "arxiv", confidence := 1 }] ∧
      (processBatch [c3RecordA, c3RecordB] {}).1 = summaryDict 2 2 0 1) := by
  refine ⟨by decide, by decide, ?_⟩
  exact record_linkage_unique c3RecordA c3RecordB {}
    (by decide) (by decide) (by decide) (by decide) (by decide) (by decide)
    (by decide) (by intro l hl; simp at hl)

/-! ## C5: first-writer-wins for venue/domain attribution -/

/-- C5.  When a record's normalized title and year match an
already-persisted paper, the batch loop body only adds a provenance link
(nothing at all when the `(paper, raw)` pair already exists): the
`papers` table — in particular the matched row's `venue_id` and `domain` —
is byte-for-byte unchanged, whatever venue the new record's resolver
output attributes. -/
theorem first_writer_wins (rp : RawPaper) (db : AgentDB) (pid : Nat)
    (h1 : normalizeTitle rp.title ≠ "")
    (h2 : findPaperByTitle (lowerStr (normalizeTitle rp.title)) rp.year db = some pid) :
    ((recordStep rp db).1).papers = db.papers ∧
    ((recordStep rp db).1).links
      = (if db.links.any (fun l => l.paperId = pid ∧ l.rawId = rp.rawId) then db.links
         else db.links ++ [{ paperId := pid, rawId := rp.rawId,
                             source := rp.source, confidence := 1 }]) ∧
    (recordStep rp db).2 = RecOutcome.okMerged := by
  obtain ⟨hp, hl, _, ho⟩ := recordStep_merge rp db pid h1 h2
  exact ⟨hp, hl, ho⟩

/-- Witness for C5: `c5Record` resolves venue ICML, yet the stored
paper's EMNLP/NLP attribution survives untouched and only a link is
added. -/
theorem first_writer_wins_witness :
    (normalizeTitle c5Record.title ≠ "") ∧
    findPaperByTitle (lowerStr (normalizeTitle c5Record.title)) c5Record.year c5Store
      = some 7 ∧
    ((recordStep c5Record c5Store).1).papers = c5Store.papers ∧
    ((recordStep c5Record c5Store).1).links
      = (if c5Store.links.any (fun l => l.paperId = 7 ∧ l.rawId = c5Record.rawId)
         then c5Store.links
         else c5Store.links ++ [{ paperId := 7, rawId := c5Record.rawId,
                                  source := c5Record.source, confidence := 1 }]) ∧
    (recordStep c5Record c5Store).2 = RecOutcome.okMerged := by
  refine ⟨by decide, by decide, ?_⟩
  exact first_writer_wins c5Record c5Store 7 (by decide) (by decide)

/-! ## C9: batch error handling (corrected) -/

/-- C9, counterexample.  `process_batch` reports a summary keyed
`{processed, success, failed, merged}` — there is no `succeeded` and no
`skipped` key as the claim states — and a record with an empty title is
counted under `failed`. -/
theorem batch_summary_keys_cex :
    ((processBatch [c9EmptyRecord] {}).1).lookup "succeeded" = none ∧
    ((processBatch [c9EmptyRecord] {}).1).lookup "skipped" = none ∧
    (processBatch [c9EmptyRecord] {}).1 = summaryDict 1 0 1 0 := by decide

/-- The count invariant of the batch fold: every record increments
exactly one of `success`/`failed`. -/
theorem batch_fold_counts
    (act : RawPaper → AgentDB → Except String (AgentDB × RecOutcome)) :
    ∀ (records : List RawPaper) (st : AgentDB × Nat × Nat × Nat),
    (records.foldl (batchStep act) st).2.1 + (records.foldl (batchStep act) st).2.2.1
      = st.2.1 + st.2.2.1 + records.length := by
  intro records
  induction records with
  | nil => intro st; simp
  | cons rp rest ih =>
    intro st
    simp only [List.foldl_cons, List.length_cons]
    rw [ih]
    unfold batchStep
    cases hact : act rp st.1 with
    | error e => simp only; omega
    | ok pr =>
      cases pr with
      | mk db' o => cases o <;> (simp only; omega)

/-- C9, amended.  For every per-record action — including ones that raise
collaborator exceptions — `process_batch` returns (it never propagates a
per-record error) a summary with exactly the keys
`{processed, success, failed, merged}`, where `processed` is the full
batch size and `success + failed = processed`; a record whose title
normalizes to the empty string is dropped by the loop body and counted
(under `failed`), the store left unchanged. -/
theorem batch_no_throw_amended
    (act : RawPaper → AgentDB → Except String (AgentDB × RecOutcome))
    (records : List RawPaper) (db : AgentDB)
    (rp : RawPaper) (db' : AgentDB)
    (hEmpty : normalizeTitle rp.title = "") :
    ((processBatchWith act records db).1).map Prod.fst
      = ["processed", "success", "failed", "merged"] ∧
    (∃ su f m, (processBatchWith act records db).1 = summaryDict records.length su f m ∧
      su + f = records.length) ∧
    recordStep rp db' = (db', RecOutcome.noPaper) := by
  refine ⟨?_, ?_, ?_⟩
  · unfold processBatchWith
    split
    · rfl
    · rfl
  · unfold processBatchWith
    split
    · next he =>
      rw [List.isEmpty_iff] at he
      subst he
      exact ⟨0, 0, 0, rfl, rfl⟩
    · have hc := batch_fold_counts act records (db, 0, 0, 0)
      refine ⟨_, _, _, rfl, ?_⟩
      simpa using hc
  · unfold recordStep processRawPaper
    rw [if_pos hEmpty]

/-- Witness for the amended C9: the collaborator raises on the second
record, which is counted as failed while the first is still processed. -/
theorem batch_no_throw_amended_witness :
    normalizeTitle c9EmptyRecord.title = "" ∧
    ((processBatchWith c9FaultyAct [c9EmptyRecord, c9GoodRecord] {}).1).map Prod.fst
      = ["processed", "success", "failed", "merged"] ∧
    (∃ su f m, (processBatchWith c9FaultyAct [c9EmptyRecord, c9GoodRecord] {}).1
        = summaryDict 2 su f m ∧ su + f = 2) ∧
    recordStep c9EmptyRecord {} = ({}, RecOutcome.noPaper) ∧
    (processBatchWith c9FaultyAct [c9EmptyRecord, c9GoodRecord] {}).1
      = summaryDict 2 0 2 0 := by
  have h := batch_no_throw_amended c9FaultyAct [c9EmptyRecord, c9GoodRecord] {}
    c9EmptyRecord {} (by decide)
  exact ⟨by decide, h.1, h.2.1, h.2.2, by decide⟩

/-! ## C2: comments-based venue detection (corrected) -/

/-- C2, counterexample.  `_detect_venue` on a record with
`comments = "accepted by NeurIPS'23"` returns confidence 0.7 — not the
0.9 the claim states — and its result type carries no year at all. -/
theorem venue_comments_cex :
    detectVenue c2Record = (some "NeurIPS", mkRat 7 10) ∧ mkRat 7 10 ≠ mkRat 9 10 := by
  decide

/-- C2, amended.  Any comments-only match in `_detect_venue` yields
confidence 0.7 (never 0.9, and no year hint); year capture exists only in
the separate `extract_venue_from_comments` of `enhance_venue_detection.py`,
and even there `"accepted by NeurIPS'23"` yields `("NeurIPS", 2023, 0.7)`
because the bare year-bearing pattern precedes the accepted-phrasing
pattern in the table. -/
theorem venue_comments_amended (rp : RawPaper) (v : String)
    (h1 : ¬(rp.source = "openreview" ∧ optTruthy rp.venueRaw = true))
    (h2 : optTruthy rp.venueRaw = true → matchVenuePatterns (rp.venueRaw.getD "") = none)
    (h3 : optTruthy rp.comments = true)
    (h4 : matchVenuePatterns (rp.comments.getD "") = some v) :
    detectVenue rp = (some v, mkRat 7 10) ∧
    extractVenueFromComments "accepted by NeurIPS'23"
      = (some "NeurIPS", some 2023, mkRat 7 10) := by
  refine ⟨?_, by decide⟩
  unfold detectVenue
  rw [if_neg h1]
  cases hvr : optTruthy rp.venueRaw with
  | false => simp only [hvr, if_neg, Bool.false_eq_true, if_false, h3, if_true, h4]
  | true => simp only [hvr, if_true, h2 hvr, h3, h4]

/-- Witness for the amended C2 at the concrete record. -/
theorem venue_comments_amended_witness :
    (¬(c2Record.source = "openreview" ∧ optTruthy c2Record.venueRaw = true)) ∧
    optTruthy c2Record.comments = true ∧
    matchVenuePatterns (c2Record.comments.getD "") = some "NeurIPS" ∧
    detectVenue c2Record = (some "NeurIPS", mkRat 7 10) ∧
    extractVenueFromComments "accepted by NeurIPS'23"
      = (some "NeurIPS", some 2023, mkRat 7 10) := by
  refine ⟨by decide, by decide, by decide, ?_⟩
  exact venue_comments_amended c2Record "NeurIPS" (by decide) (by decide) (by decide) (by decide)

/-! ## C4: venue evidence priority -/

theorem matchVenuePatterns_mem (t w : String) :
    matchVenuePatterns t = some w → w ∈ VENUE_PATTERNS.map Prod.fst := by
  unfold matchVenuePatterns
  generalize VENUE_PATTERNS = table
  induction table with
  | nil => intro h; simp [firstSome] at h
  | cons vp rest ih =>
    intro h
    simp only [firstSome] at h
    cases hfx : (if (vp.2.any fun p => (reSearch p t).isSome) = true then some vp.1 else none) with
    | some r =>
      rw [hfx] at h
      injection h with h'
      have hr : r = vp.1 := by
        by_cases hc : (vp.2.any fun p => (reSearch p t).isSome) = true
        · rw [if_pos hc] at hfx; exact (Option.some.inj hfx).symm
        · rw [if_neg hc] at hfx; exact Option.noConfusion hfx
      rw [List.map_cons, ← h', hr]
      exact List.mem_cons_self _ _
    | none =>
      rw [hfx] at h
      exact List.mem_cons_of_mem _ (ih h)

/-- Each canonical venue name either matches itself first or matches
nothing (only `"ACL"`'s own patterns require a year). -/
theorem venue_names_self_match :
    ∀ w ∈ VENUE_PATTERNS.map Prod.fst,
      matchVenuePatterns w = some w ∨ matchVenuePatterns w = none := by decide

/-- C4.  When `venue_raw` matches a known venue pattern, `_detect_venue`
answers from `venue_raw` (verbatim at 1.0 for a curated OpenReview record,
else the matched name at 0.9) and never returns a venue matched from
`comments`: the priority order venueRaw → comments → journalRef
short-circuits at the first match. -/
theorem venue_priority (rp : RawPaper) (s v w : String)
    (hvr : rp.venueRaw = some s) (hs : s ≠ "")
    (hm : matchVenuePatterns s = some v)
    (hcm : matchVenuePatterns (rp.comments.getD "") = some w)
    (hne : w ≠ v) :
    detectVenue rp
      = (if rp.source = "openreview" then (some s, 1) else (some v, mkRat 9 10)) ∧
    (detectVenue rp).1 ≠ some w := by
  have htr : optTruthy rp.venueRaw = true := by
    rw [hvr]; simp [optTruthy, hs]
  by_cases hsrc : rp.source = "openreview"
  · have hdv : detectVenue rp = (some s, 1) := by
      unfold detectVenue
      rw [if_pos ⟨hsrc, htr⟩, hvr]
    have hsw : s ≠ w := by
      intro hswe
      have hwmem := matchVenuePatterns_mem _ _ hcm
      rcases venue_names_self_match w hwmem with hself | hnone
      · rw [hswe] at hm
        rw [hm] at hself
        exact hne (Option.some.inj hself).symm
      · rw [hswe] at hm
        rw [hm] at hnone
        exact Option.noConfusion hnone
    constructor
    · rw [hdv, if_pos hsrc]
    · rw [hdv]
      simp only [ne_eq, Option.some.injEq]
      exact hsw
  · have hdv : detectVenue rp = (some v, mkRat 9 10) := by
      unfold detectVenue
      rw [if_neg (fun hc => hsrc hc.1), hvr]
      simp only [optTruthy, hs, Bool.not_eq_true]
      simp only [Option.getD_some]
      simp [hs, hm]
    constructor
    · rw [hdv, if_neg hsrc]
    · rw [hdv]
      simp only [ne_eq, Option.some.injEq]
      exact fun hvw => hne (hvw.symm)

/-- Witness for C4: `venue_raw = "ICML 2024"` beats
`comments = "CVPR 2024"`. -/
theorem venue_priority_witness :
    c4Record.venueRaw = some "ICML 2024" ∧
    matchVenuePatterns "ICML 2024" = some "ICML" ∧
    matchVenuePatterns "CVPR 2024" = some "CVPR" ∧
    detectVenue c4Record = (some "ICML", mkRat 9 10) ∧
    (detectVenue c4Record).1 ≠ some "CVPR" := by
  refine ⟨by decide, by decide, by decide, ?_⟩
  have h := venue_priority c4Record
    "ICML 2024" "ICML" "CVPR" rfl (by decide) (by decide) (by decide) (by decide)
  exact ⟨by rw [h.1]; decide, h.2⟩

/-! ## C7: fuzzy-dedup monotonicity -/

/-- C7.  For every configuration, input list and threshold, enabling
fuzzy dedup never lengthens the output of `KeywordFilter.process`
(first conjunct, fully universal); and when the exact-dedup stage has a
unique highest-scoring pair, that pair survives fuzzy dedup. -/
theorem fuzzy_dedup_monotone (f : KeywordFilter) (kws : List (String × ℚ))
    (th : ℚ) (t : String) (s : ℚ)
    (ht : (t, s) ∈ KeywordFilter.process f kws false th)
    (hmax : ∀ p ∈ KeywordFilter.process f kws false th, p ≠ (t, s) → p.2 < s) :
    (∀ (g : KeywordFilter) (l : List (String × ℚ)) (u : ℚ),
      (KeywordFilter.process g l true u).length
        ≤ (KeywordFilter.process g l false u).length) ∧
    (t, s) ∈ KeywordFilter.process f kws true th := by
  have hfalse : KeywordFilter.process f kws false th
      = KeywordFilter.dedupExact (KeywordFilter.stage3 f kws) := by
    unfold KeywordFilter.process; rfl
  have htrue : KeywordFilter.process f kws true th
      = KeywordFilter.dedupFuzzy (KeywordFilter.dedupExact (KeywordFilter.stage3 f kws)) th := by
    unfold KeywordFilter.process; rfl
  rw [hfalse] at ht hmax
  constructor
  · intro g l u
    have hgfalse : KeywordFilter.process g l false u
        = KeywordFilter.dedupExact (KeywordFilter.stage3 g l) := by
      unfold KeywordFilter.process; rfl
    have hgtrue : KeywordFilter.process g l true u
        = KeywordFilter.dedupFuzzy (KeywordFilter.dedupExact (KeywordFilter.stage3 g l)) u := by
      unfold KeywordFilter.process; rfl
    rw [hgtrue, hgfalse]
    exact dedupFuzzy_length _ u
  · rw [htrue]
    have hkey : ∀ y ∈ KeywordFilter.dedupExact (KeywordFilter.stage3 f kws),
        y ≠ (t, s) → (fun p => p.2) y < (fun p => p.2) (t, s) := by
      intro y hy hne; exact hmax y hy hne
    obtain ⟨tl, htl⟩ := sortQDesc_head_of_strict_max (fun p => p.2) (t, s)
      (KeywordFilter.dedupExact (KeywordFilter.stage3 f kws)) ht hkey
    unfold KeywordFilter.dedupFuzzy
    rw [htl]
    simp only [List.foldl_cons, List.any_nil, Bool.false_eq_true, if_neg, List.nil_append]
    exact dedupFuzzy_fold_mem th (t, s) tl [(t, s)] (List.mem_singleton.mpr rfl)

/-! ## C8: emerging-topic detection -/

theorem insertStrAsc_length {α : Type} (key : α → String) (x : α) (l : List α) :
    (insertStrAsc key x l).length = l.length + 1 := by
  induction l with
  | nil => rfl
  | cons y ys ih =>
    simp only [insertStrAsc]
    split
    · simp [ih]
    · simp

theorem sortStrAsc_length {α : Type} (key : α → String) (l : List α) :
    (sortStrAsc key l).length = l.length := by
  induction l with
  | nil => rfl
  | cons x xs ih => simp [sortStrAsc, insertStrAsc_length, ih]

theorem insertQDesc_pairwise {α : Type} (key : α → ℚ) (x : α) :
    ∀ (m : List α), List.Pairwise (fun a b => key b ≤ key a) m →
    List.Pairwise (fun a b => key b ≤ key a) (insertQDesc key x m) := by
  intro m
  induction m with
  | nil => intro _; simp [insertQDesc]
  | cons y ys ih =>
    intro h
    rw [List.pairwise_cons] at h
    simp only [insertQDesc]
    split
    · next hlt =>
      rw [List.pairwise_cons]
      constructor
      · intro z hz
        rcases mem_of_mem_insertQDesc key x z ys hz with h1 | h1
        · subst h1; exact le_of_lt hlt
        · exact h.1 z h1
      · exact ih h.2
    · next hge =>
      rw [List.pairwise_cons]
      constructor
      · intro z hz
        rcases List.mem_cons.mp hz with h1 | h1
        · subst h1; exact not_lt.mp hge
        · exact le_trans (h.1 z h1) (not_lt.mp hge)
      · rw [List.pairwise_cons]
        exact h

theorem sortQDesc_pairwise {α : Type} (key : α → ℚ) (l : List α) :
    List.Pairwise (fun a b => key b ≤ key a) (sortQDesc key l) := by
  induction l with
  | nil => simp [sortQDesc]
  | cons x xs ih => exact insertQDesc_pairwise key x _ ih

/-- Embeds `qdiv` is exact rational division. -/
theorem qdiv_eq_div (x y : ℚ) (hy : y ≠ 0) : qdiv x y = x / y := by
  unfold qdiv
  rw [Rat.divInt_eq_div]
  have hxd : ((x.den : ℚ)) ≠ 0 := by
    exact_mod_cast x.den_nz
  have hyd : ((y.den : ℚ)) ≠ 0 := by
    exact_mod_cast y.den_nz
  have hyn : ((y.num : ℚ)) ≠ 0 := by
    exact_mod_cast Rat.num_ne_zero.mpr hy
  have hxx : (x.num : ℚ) = x * (x.den : ℚ) := by
    have h := Rat.num_div_den x
    rwa [div_eq_iff hxd] at h
  have hyy : (y.num : ℚ) = y * (y.den : ℚ) := by
    have h := Rat.num_div_den y
    rwa [div_eq_iff hyd] at h
  push_cast
  rw [div_eq_div_iff (mul_ne_zero hxd hyn) hy]
  calc (x.num : ℚ) * (y.den : ℚ) * y = (x.num : ℚ) * (y * (y.den : ℚ)) := by ring
    _ = (x.num : ℚ) * (y.num : ℚ) := by rw [← hyy]
    _ = (x * (x.den : ℚ)) * (y.num : ℚ) := by rw [← hxx]
    _ = x * ((x.den : ℚ) * (y.num : ℚ)) := by ring

/-- C8, counterexample.  With 8 weekly buckets in which `"fading topic"`
has counts `[8,8,8,8]` in the first four weeks and is absent afterwards,
`detect_emerging_topics` averages over the keyword's own data points
(`recent_avg = 8`, `historical_avg = 0.1`, growth 80) and retains it as
rising — while the claim's last-`N`-buckets / previous-`N`-buckets
computation gives growth rate 0, which its own classification calls
declining (`≤ 0.7`), not retained. -/
theorem emerging_topic_cex :
    detectEmergingTopics c8FadingTS "ALL" (mkRat 3 2) 4
      = [{ category := "ALL", keyword := "fading topic", growthRate := 80,
           firstSeen := "2024-W01", recentCount := 8, trend := "rising" }] ∧
    specRecentAvg c8FadingTS "fading topic" 4 = 0 ∧
    specHistAvg c8FadingTS "fading topic" 4 = 8 ∧
    specGrowth c8FadingTS "fading topic" 4 = 0 ∧
    ¬ (specGrowth c8FadingTS "fading topic" 4 ≥ mkRat 3 2) ∧
    specGrowth c8FadingTS "fading topic" 4 ≤ mkRat 7 10 := by decide

/-- C8, amended.  For a keyword whose time-sorted series has at least
`2N` data points (the buckets where it appears) and a positive historical
average, the detector computes `growthRate = recentAvg / historicalAvg`
with `recentAvg` the mean of the keyword's last `N` counts and
`historicalAvg` the mean of the `N` counts before them (`0.1` when the
keyword has fewer than `2N` points); the keyword is retained exactly when
the growth rate reaches the threshold, the rising/declining/stable
classification uses 1.5 and 0.7, output is sorted by growth rate
descending, and the concrete series `[1,1,2,2]` then `[6,7,8,9]` — a
keyword present in every bucket, where data points and buckets coincide —
yields growth rate 5.0, classified rising and retained. -/
theorem emerging_topic_detection (pts : List (String × Nat)) (N : Nat)
    (category keyword : String) (threshold : ℚ)
    (hN : 0 < N) (hlen : 2 * N ≤ pts.length)
    (hhist : 0 < histAvgOf (sortStrAsc (fun p => p.1) pts) N) :
    (growthOf (sortStrAsc (fun p => p.1) pts) N
      = recentAvgOf (sortStrAsc (fun p => p.1) pts) N
        / histAvgOf (sortStrAsc (fun p => p.1) pts) N) ∧
    (recentAvgOf (sortStrAsc (fun p => p.1) pts) N
      = Rat.divInt
          (((((sortStrAsc (fun p => p.1) pts).drop
                ((sortStrAsc (fun p => p.1) pts).length - N)).map (fun p => p.2)
              : List Nat).sum : Int))
          (N : Int)) ∧
    (histAvgOf (sortStrAsc (fun p => p.1) pts) N
      = Rat.divInt
          (((((((sortStrAsc (fun p => p.1) pts).drop
                  ((sortStrAsc (fun p => p.1) pts).length - 2 * N)).take N).map
                (fun p => p.2) : List Nat).sum : Int)))
          (N : Int)) ∧
    (∀ dp' : List (String × Nat), dp'.length < 2 * N → histAvgOf dp' N = mkRat 1 10) ∧
    (analyzeKeyword category keyword threshold N pts
      = if growthOf (sortStrAsc (fun p => p.1) pts) N ≥ threshold
        then some (risingRecord category keyword (sortStrAsc (fun p => p.1) pts) N)
        else none) ∧
    (∀ g : ℚ, (classifyTrend g threshold = "rising" ↔ g ≥ threshold) ∧
      (classifyTrend g threshold = "declining" ↔ (¬ g ≥ threshold ∧ g ≤ mkRat 7 10)) ∧
      (classifyTrend g threshold = "stable" ↔ (¬ g ≥ threshold ∧ ¬ g ≤ mkRat 7 10))) ∧
    (∀ (ts : List TSBucket) (cat : String),
      List.Pairwise (fun a b => b.growthRate ≤ a.growthRate)
        (detectEmergingTopics ts cat threshold N)) ∧
    detectEmergingTopics c8Timeseries "ALL" (mkRat 3 2) 4
      = [{ category := "ALL", keyword := "retrieval augmented", growthRate := 5,
           firstSeen := "2024-W01", recentCount := 7, trend := "rising" }] := by
  have hdplen : (sortStrAsc (fun p => p.1) pts).length = pts.length :=
    sortStrAsc_length _ _
  have hNne : N ≠ 0 := Nat.pos_iff_ne_zero.mp hN
  refine ⟨?_, ?_, ?_, ?_, ?_, ?_, ?_, by decide⟩
  · unfold growthOf
    rw [if_pos hhist]
    exact qdiv_eq_div _ _ (ne_of_gt hhist)
  · have hslice : recentCountsOf (sortStrAsc (fun p => p.1) pts) N
        = ((sortStrAsc (fun p => p.1) pts).drop
            ((sortStrAsc (fun p => p.1) pts).length - N)).map (fun p => p.2) := by
      unfold recentCountsOf lastSlice
      rw [if_neg hNne]
    unfold recentAvgOf
    rw [hslice, List.length_map, List.length_drop]
    have h2 : (sortStrAsc (fun p => p.1) pts).length
        - ((sortStrAsc (fun p => p.1) pts).length - N) = N := by
      rw [hdplen]; omega
    rw [h2]
  · have hslice : histCountsOf (sortStrAsc (fun p => p.1) pts) N
        = (((sortStrAsc (fun p => p.1) pts).drop ((sortStrAsc (fun p => p.1) pts).length - 2 * N)).take N).map (fun p => p.2) := by
      unfold histCountsOf histSlice
      rw [if_neg hNne]
    have hlen2 : (((((sortStrAsc (fun p => p.1) pts).drop ((sortStrAsc (fun p => p.1) pts).length - 2 * N)).take N).map (fun p => p.2) : List Nat)).length = N := by
      rw [List.length_map, List.length_take, List.length_drop, hdplen]
      omega
    have hemp : (((((sortStrAsc (fun p => p.1) pts).drop ((sortStrAsc (fun p => p.1) pts).length - 2 * N)).take N).map (fun p => p.2) : List Nat)).isEmpty = false := by
      cases hcs : (((((sortStrAsc (fun p => p.1) pts).drop ((sortStrAsc (fun p => p.1) pts).length - 2 * N)).take N).map (fun p => p.2) : List Nat)) with
      | nil =>
        rw [hcs] at hlen2
        simp at hlen2
        exact absurd hlen2.symm hNne
      | cons a l => rfl
    unfold histAvgOf
    rw [if_pos (by rw [hdplen]; omega), hslice, hemp]
    simp only [Bool.false_eq_true, if_false, hlen2]
  · intro dp' hlt
    unfold histAvgOf
    rw [if_neg (by omega)]
  · unfold analyzeKeyword
    rw [if_neg (by omega)]
    by_cases hg : growthOf (sortStrAsc (fun p => p.1) pts) N ≥ threshold
    · rw [if_pos hg]
      rw [if_pos ⟨by unfold classifyTrend; rw [if_pos hg], hg⟩]
    · rw [if_neg hg]
      rw [if_neg (fun hcon => hg hcon.2)]
  · intro g
    unfold classifyTrend
    by_cases h1 : g ≥ threshold
    · rw [if_pos h1]
      exact ⟨⟨fun _ => h1, fun _ => rfl⟩,
             ⟨fun hcon => absurd hcon (by decide), fun hcon => absurd h1 hcon.1⟩,
             ⟨fun hcon => absurd hcon (by decide), fun hcon => absurd h1 hcon.1⟩⟩
    · rw [if_neg h1]
      by_cases h2 : g ≤ mkRat 7 10
      · rw [if_pos h2]
        exact ⟨⟨fun hcon => absurd hcon (by decide), fun hg => absurd hg h1⟩,
               ⟨fun _ => ⟨h1, h2⟩, fun _ => rfl⟩,
               ⟨fun hcon => absurd hcon (by decide), fun hcon => absurd h2 hcon.2⟩⟩
      · rw [if_neg h2]
        exact ⟨⟨fun hcon => absurd hcon (by decide), fun hg => absurd hg h1⟩,
               ⟨fun hcon => absurd hcon (by decide), fun hcon => absurd hcon.2 h2⟩,
               ⟨fun _ => ⟨h1, h2⟩, fun _ => rfl⟩⟩
  · intro ts cat
    unfold detectEmergingTopics
    split
    · simp
    · exact sortQDesc_pairwise _ _

/-- Witness for the amended C8 at the concrete series. -/
theorem emerging_topic_detection_witness :
    0 < 4 ∧ 2 * 4 ≤ c8Points.length ∧
    0 < histAvgOf (sortStrAsc (fun p => p.1) c8Points) 4 ∧
    (analyzeKeyword "ALL" "retrieval augmented" (mkRat 3 2) 4 c8Points
      = if growthOf (sortStrAsc (fun p => p.1) c8Points) 4 ≥ mkRat 3 2
        then some (risingRecord "ALL" "retrieval augmented"
                    (sortStrAsc (fun p => p.1) c8Points) 4)
        else none) ∧
    detectEmergingTopics c8Timeseries "ALL" (mkRat 3 2) 4
      = [{ category := "ALL", keyword := "retrieval augmented", growthRate := 5,
           firstSeen := "2024-W01", recentCount := 7, trend := "rising" }] := by
  have h := emerging_topic_detection c8Points 4 "ALL" "retrieval augmented" (mkRat 3 2)
    (by decide) (by decide) (by decide)
  exact ⟨by decide, by decide, by decide, h.2.2.2.2.1, h.2.2.2.2.2.2.2⟩

/-- Witness for C7 at a two-candidate input with a unique maximum. -/
theorem fuzzy_dedup_monotone_witness :
    (("deep equilibrium", mkRat 9 10) ∈ KeywordFilter.process defaultFilter
      [("deep equilibrium", mkRat 9 10), ("graph coloring", mkRat 1 2)] false (mkRat 85 100)) ∧
    (∀ p ∈ KeywordFilter.process defaultFilter
      [("deep equilibrium", mkRat 9 10), ("graph coloring", mkRat 1 2)] false (mkRat 85 100),
      p ≠ ("deep equilibrium", mkRat 9 10) → p.2 < mkRat 9 10) ∧
    (∀ (g : KeywordFilter) (l : List (String × ℚ)) (u : ℚ),
      (KeywordFilter.process g l true u).length
        ≤ (KeywordFilter.process g l false u).length) ∧
    ("deep equilibrium", mkRat 9 10) ∈ KeywordFilter.process defaultFilter
      [("deep equilibrium", mkRat 9 10), ("graph coloring", mkRat 1 2)] true (mkRat 85 100) := by
  refine ⟨by decide, by decide, ?_⟩
  exact fuzzy_dedup_monotone defaultFilter
    [("deep equilibrium", mkRat 9 10), ("graph coloring", mkRat 1 2)] (mkRat 85 100)
    "deep equilibrium" (mkRat 9 10) (by decide) (by decide)

end DeepTrender
